import Mathlib

/-!
Verification development for the FHIR-Converter worker
(`src/lib/workers/worker.js`).

The worker is shallowly embedded: JavaScript values flowing through the
handler are modelled by `JVal`, JSON.parse / JSON.stringify by an
executable parser and printer over `JVal` (numbers restricted to exact
integers; object keys kept in order of appearance), promise settlement by
an ordered event trace whose first settlement wins, and the external
collaborator modules (file system, template pre-processor, template
engine, output post-processor, resource merger) by an explicit `Env`
record of functions, since their sources are not part of the worker file.
-/

namespace FhirWorker

/-- JSON-representable JavaScript values (the structured data the worker
passes around).  Numbers are modelled as exact integers; object fields
keep their textual order. -/
inductive JVal where
  | null : JVal
  | bool : Bool → JVal
  | num : Int → JVal
  | str : String → JVal
  | arr : List JVal → JVal
  | obj : List (String × JVal) → JVal

/-- JavaScript truthiness of a `JVal`. -/
def truthyJ : JVal → Bool
  | .null => false
  | .bool b => b
  | .num n => n != 0
  | .str s => !s.isEmpty
  | .arr _ => true
  | .obj _ => true

/-- Model of `Object.entries` of a `JVal`, as the list of entries (pairs for plain
objects, indexed elements for arrays, indexed characters for strings,
empty for primitives). -/
def jsEntries : JVal → List (String × JVal)
  | .obj fs => fs
  | .arr xs => (xs.enum.map fun p => (toString p.1, p.2))
  | .str s => (s.toList.enum.map fun p => (toString p.1, .str (String.mk [p.2])))
  | _ => []

/-- Model of `v.constructor === Object`: true exactly for plain objects. -/
def isPlainObject : JVal → Bool
  | .obj _ => true
  | _ => false

/-- First-match field lookup in a plain object (`c.FIELD` access). -/
def objGet (v : JVal) (k : String) : Option JVal :=
  match v with
  | .obj fs => (fs.find? fun p => p.1 = k).map (·.2)
  | _ => none

mutual

/-- Structural size of a `JVal`; used as a fuel bound for the JSON parser. -/
def sizeJ : JVal → Nat
  | .null => 1
  | .bool _ => 1
  | .num _ => 1
  | .str _ => 1
  | .arr xs => 1 + sizeArr xs
  | .obj fs => 1 + sizeObj fs

def sizeArr : List JVal → Nat
  | [] => 0
  | x :: xs => 1 + sizeJ x + sizeArr xs

def sizeObj : List (String × JVal) → Nat
  | [] => 0
  | kv :: xs => 1 + sizeJ kv.2 + sizeObj xs

end

/-- The decimal digit character for `d < 10`. -/
def digitChar (d : Nat) : Char := Char.ofNat (48 + d)

/-- Decimal digits of a natural number, most significant first
(accumulator form). -/
def natDigitsAux : Nat → List Char → List Char
  | n, acc =>
    if h : n < 10 then digitChar n :: acc
    else natDigitsAux (n / 10) (digitChar (n % 10) :: acc)
  termination_by n => n
  decreasing_by exact Nat.div_lt_self (by omega) (by omega)

def natDigits (n : Nat) : List Char := natDigitsAux n []

/-- Decimal notation of an integer, as characters. -/
def intChars (n : Int) : List Char :=
  if n < 0 then '-' :: natDigits n.natAbs else natDigits n.natAbs

/-- JSON escaping of one string character (the printer escapes exactly the
quote and the backslash). -/
def escChar (c : Char) : List Char :=
  if c = '"' ∨ c = '\\' then ['\\', c] else [c]

def escChars : List Char → List Char
  | [] => []
  | c :: cs => escChar c ++ escChars cs

/-- The opening and closing brace characters. -/
def lbr : Char := Char.ofNat 123
def rbr : Char := Char.ofNat 125

mutual

/-- Model of `JSON.stringify` (character list form). -/
def strJ : JVal → List Char
  | .null => "null".data
  | .bool true => "true".data
  | .bool false => "false".data
  | .num n => intChars n
  | .str s => '"' :: (escChars s.data ++ ['"'])
  | .arr xs => '[' :: (strArr xs ++ [']'])
  | .obj fs => lbr :: (strObj fs ++ [rbr])

def strArr : List JVal → List Char
  | [] => []
  | [x] => strJ x
  | x :: y :: xs => strJ x ++ ',' :: strArr (y :: xs)

def strObj : List (String × JVal) → List Char
  | [] => []
  | [kv] => '"' :: (escChars kv.1.data ++ '"' :: ':' :: strJ kv.2)
  | kv :: kv2 :: xs =>
      ('"' :: (escChars kv.1.data ++ '"' :: ':' :: strJ kv.2)) ++ ',' :: strObj (kv2 :: xs)

end

/-- Model of `JSON.stringify`. -/
def jsonStringify (v : JVal) : String := String.mk (strJ v)

/-- JSON insignificant whitespace. -/
def isWs (c : Char) : Bool := c = ' ' || c = '\n' || c = '\t' || c = '\r'

def skipWs : List Char → List Char
  | [] => []
  | c :: cs => if isWs c then skipWs cs else c :: cs

def digitVal (c : Char) : Nat := c.toNat - 48

/-- Consume a maximal run of decimal digits, accumulating their value. -/
def readDigits : List Char → Nat → Nat × List Char
  | [], acc => (acc, [])
  | c :: cs, acc =>
    if c.isDigit then readDigits cs (acc * 10 + digitVal c) else (acc, c :: cs)

/-- Unescaping of a JSON string escape character. -/
def unesc (c : Char) : Option Char :=
  if c = '"' then some '"'
  else if c = '\\' then some '\\'
  else if c = '/' then some '/'
  else if c = 'n' then some '\n'
  else if c = 't' then some '\t'
  else if c = 'r' then some '\r'
  else none

/-- Parse a JSON string body (after the opening quote), returning the
content characters and the rest after the closing quote. -/
def parseStrBody : List Char → Option (List Char × List Char)
  | [] => none
  | c :: cs =>
    if c = '\\' then
      match cs with
      | [] => none
      | d :: cs' =>
        match unesc d with
        | none => none
        | some u => (parseStrBody cs').map fun p => (u :: p.1, p.2)
    else if c = '"' then some ([], cs)
    else (parseStrBody cs).map fun p => (c :: p.1, p.2)

mutual

/-- Fuel-indexed model of `JSON.parse`: parse one JSON value, returning it
together with the unconsumed rest. -/
def parseVal : Nat → List Char → Option (JVal × List Char)
  | 0, _ => none
  | Nat.succ f, cs0 =>
    match skipWs cs0 with
    | [] => none
    | c :: rest =>
      if c = 'n' then
        match rest with
        | 'u' :: 'l' :: 'l' :: r => some (.null, r)
        | _ => none
      else if c = 't' then
        match rest with
        | 'r' :: 'u' :: 'e' :: r => some (.bool true, r)
        | _ => none
      else if c = 'f' then
        match rest with
        | 'a' :: 'l' :: 's' :: 'e' :: r => some (.bool false, r)
        | _ => none
      else if c = '"' then
        (parseStrBody rest).map fun p => (.str (String.mk p.1), p.2)
      else if c = '-' then
        match rest with
        | d :: _ =>
          if d.isDigit then
            let p := readDigits rest 0
            some (.num (-(p.1 : Int)), p.2)
          else none
        | [] => none
      else if c.isDigit then
        let p := readDigits (c :: rest) 0
        some (.num (p.1 : Int), p.2)
      else if c = '[' then
        match skipWs rest with
        | ']' :: r => some (.arr [], r)
        | _ => (parseElems f rest).map fun p => (.arr p.1, p.2)
      else if c = lbr then
        match skipWs rest with
        | d :: r => if d = rbr then some (.obj [], r) else
            (parseMembers f rest).map fun p => (.obj p.1, p.2)
        | [] => none
      else none

/-- Parse the elements of a non-empty JSON array (after `[`), including
the closing `]`. -/
def parseElems : Nat → List Char → Option (List JVal × List Char)
  | 0, _ => none
  | Nat.succ f, cs =>
    match parseVal f cs with
    | none => none
    | some (v, r) =>
      match skipWs r with
      | ',' :: r2 => (parseElems f r2).map fun p => (v :: p.1, p.2)
      | ']' :: r2 => some ([v], r2)
      | _ => none

/-- Parse the members of a non-empty JSON object (after the opening
brace), including the closing brace. -/
def parseMembers : Nat → List Char → Option (List (String × JVal) × List Char)
  | 0, _ => none
  | Nat.succ f, cs =>
    match skipWs cs with
    | '"' :: r =>
      match parseStrBody r with
      | none => none
      | some (k, r1) =>
        match skipWs r1 with
        | ':' :: r2 =>
          match parseVal f r2 with
          | none => none
          | some (v, r3) =>
            match skipWs r3 with
            | ',' :: r4 => (parseMembers f r4).map fun p => ((String.mk k, v) :: p.1, p.2)
            | d :: r4 => if d = rbr then some ([(String.mk k, v)], r4) else none
            | [] => none
        | _ => none
    | _ => none

end

/-- Model of `JSON.parse` (returning `none` where `JSON.parse` throws a
`SyntaxError`).  Keys of objects are kept in textual order, duplicates
included; number syntax is restricted to exact integers. -/
def jsonParse (s : String) : Option JVal :=
  match parseVal (2 * s.length + 2) s.data with
  | none => none
  | some (v, rest) => if (skipWs rest).isEmpty then some v else none

/-- True when the list does not begin with a decimal digit (the shape of
every continuation following a printed number). -/
def headNotDigit : List Char → Bool
  | [] => true
  | c :: _ => !c.isDigit

/-- Model of `JSON.parse` as a throwing operation (`Except` models the thrown
`SyntaxError`). -/
def jsParseE (s : String) : Except String JVal :=
  match jsonParse s with
  | some v => .ok v
  | none => .error "SyntaxError: Unexpected token in JSON"

/-- Membership in the character class of `/^[a-zA-Z0-9\/\r\n+]*={0,2}$/`
(everything before the padding). -/
def isB64Char (c : Char) : Bool :=
  c.isAlpha || c.isDigit || c = '/' || c = '\r' || c = '\n' || c = '+'

/-- Core of the base-64 shape test: a run of alphabet characters followed
by at most two `=` at the very end. -/
def b64Core : List Char → Bool
  | [] => true
  | c :: cs =>
    if c = '=' then cs = [] || cs = ['=']
    else isB64Char c && b64Core cs

/-- Model of `base64RegEx.test` from the worker
(`/^[a-zA-Z0-9\/\r\n+]*={0,2}$/`). -/
def b64Ok (s : String) : Bool := b64Core s.data

/-- The sextet value of a base-64 alphabet character, `none` for
characters outside the alphabet (which `Buffer.from(_, 'base64')`
skips). -/
def b64Index (c : Char) : Option Nat :=
  if 'A' ≤ c ∧ c ≤ 'Z' then some (c.toNat - 65)
  else if 'a' ≤ c ∧ c ≤ 'z' then some (c.toNat - 97 + 26)
  else if '0' ≤ c ∧ c ≤ '9' then some (c.toNat - 48 + 52)
  else if c = '+' then some 62
  else if c = '/' then some 63
  else none

/-- Reassemble bytes from base-64 sextets (groups of four give three
bytes; a final group of three gives two, of two gives one, a lone sextet
is dropped). -/
def b64Bytes : List Nat → List Nat
  | a :: b :: c :: d :: rest =>
      (a * 4 + b / 16) :: ((b % 16) * 16 + c / 4) :: ((c % 4) * 64 + d) :: b64Bytes rest
  | [a, b, c] => [a * 4 + b / 16, (b % 16) * 16 + c / 4]
  | [a, b] => [a * 4 + b / 16]
  | _ => []

/-- Model of `Buffer.from(s, 'base64').toString()`: skip non-alphabet
characters, regroup sextets into bytes (byte values below 128 in all the
inputs of interest, so the byte-to-character reading is the identity). -/
def b64Decode (s : String) : String :=
  String.mk ((b64Bytes (s.data.filterMap b64Index)).map Char.ofNat)

/-- Model of the `String(x)` coercion applied to a possibly-undefined string field
(`undefined` prints as `"undefined"`, which is how `regex.test` sees an
absent field). -/
def coerceStr : Option String → String
  | none => "undefined"
  | some s => s

/-- JavaScript truthiness of a possibly-undefined string. -/
def truthyOpt : Option String → Bool
  | none => false
  | some s => !s.isEmpty

/-- Model of `Buffer.from(x, 'base64')` on a possibly-undefined field:
`Buffer.from(undefined, ...)` throws a `TypeError`. -/
def bufferFrom : Option String → Except String String
  | none => .error "TypeError: The first argument must be of type string"
  | some s => .ok (b64Decode s)

/-- A compiled template: a pure function from a rendering context to
rendered text (throwing render errors modelled by `Except`). -/
def CompiledT : Type := JVal → Except String String

/-- An engine handle: the identity of one constructed template-engine
instance, together with the `templatesMap` it was configured with. -/
structure Handle where
  id : Nat
  adhoc : Option JVal

/-- Error kinds of the worker's error module (`errorCodes`). -/
inductive ErrKind where
  | BadRequest
  | NotFound
deriving DecidableEq

/-- A structured error descriptor (`errorMessage(kind, message)`). -/
structure ErrDesc where
  kind : ErrKind
  message : String

/-- The value a task is rejected with: either the worker's structured
`(status, resultMsg)` object, or a raw thrown error that escaped the
routing switch. -/
inductive RejectVal where
  | descr (status : Nat) (err : ErrDesc)
  | raw (e : String)

/-- A settlement of the task promise: `fulfill()` carries no payload,
`fulfill( (status, resultMsg) )` carries a success envelope. -/
inductive Settlement where
  | fulfill (v : Option (Nat × JVal))
  | reject (v : RejectVal)

/-- The reject value `(status 400, errorMessage(BadRequest, msg))`. -/
def bad400 (msg : String) : RejectVal := .descr 400 ⟨.BadRequest, msg⟩

/-- Which encoded inline-conversion field an event refers to. -/
inductive FieldTag where
  | message
  | template
  | replacementDictionary
  | templatesMap
deriving DecidableEq

/-- Observable events of one task execution, in program order. -/
inductive Ev where
  | settle (s : Settlement)
  | decodeF (f : FieldTag)
  | readF (p : String)
  | instanceCall (createNew : Bool) (templatesMap : Option JVal)
  | compileCall

/-- The process-wide mutable state of the worker module: the
`rebuildCache` contamination flag, the shared engine handle (with a
fresh-id counter for newly constructed handles), the compiled-template
cache, and the `constants` configuration object. -/
structure WState where
  rebuildCache : Bool
  shared : Handle
  nextId : Nat
  compileCache : List (String × CompiledT)
  constants : JVal

/-- The external collaborator modules of the worker, which are separate
files of the repository not under `src/`: the file system read by
`fs.readFile`, `templatePreprocessor.Process`, the engine's `compile`,
`jsonProcessor.Process` and `resourceMerger.Process`. -/
structure Env where
  fs : String → Option String
  preprocess : String → String
  compile : Handle → String → Except String CompiledT
  jsonProcess : String → String
  merge : JVal → Option JVal → Except String JVal

/-- Result of one engine-handle acquisition. -/
structure AcqOut where
  inst : Handle
  st : WState
  evs : List Ev

/-- Modelled from the spec: `HandlebarsConverter.instance(createNew,
location, templatesMap)` — the file
`src/lib/handlebars-converter/handlebars-converter.js` is not under
`src/`.  Per the spec (section 4.2), when `createNew` is true a brand-new
handle is constructed, configured with the passed map, and becomes the
process-wide shared handle; otherwise the existing shared handle is
returned unchanged. -/
def converterInstance (createNew : Bool) (templatesMap : Option JVal) (st : WState) :
    Handle × WState :=
  if createNew then
    let h : Handle := ⟨st.nextId, templatesMap⟩
    (h, { st with shared := h, nextId := st.nextId + 1 })
  else (st.shared, st)

/-- The `needToUseMap` test of `GetHandlebarsInstance` (worker.js line
25): `templatesMap && Object.entries(templatesMap).length > 0 &&
templatesMap.constructor === Object`. -/
def needToUseMap (templatesMap : Option JVal) : Bool :=
  match templatesMap with
  | none => false
  | some v => truthyJ v && decide (0 < (jsEntries v).length) && isPlainObject v

/-- Model of `GetHandlebarsInstance(templatesMap)` (worker.js lines 23-29): build a
new engine instance when an override map is in use or the contamination
flag is set, then update the flag. -/
def GetHandlebarsInstance (templatesMap : Option JVal) (st : WState) : AcqOut :=
  let ntum := needToUseMap templatesMap
  let createNew := if ntum then true else st.rebuildCache
  let (inst, st1) := converterInstance createNew templatesMap st
  ⟨inst, { st1 with rebuildCache := if ntum then true else false },
    [Ev.instanceCall createNew templatesMap]⟩

/-- Model of `expireCache()` (worker.js lines 31-34): set the contamination flag
and clear every compiled-template cache entry. -/
def expireCache (st : WState) : WState :=
  { st with rebuildCache := true, compileCache := [] }

/-- First-match lookup in the compiled-template cache
(`compileCache.get`). -/
def cacheGet (cache : List (String × CompiledT)) (name : String) : Option CompiledT :=
  (cache.find? fun p => p.1 = name).map (·.2)

/-- Model of `generateResult(msgContext, template, replacementDictionary)`
(worker.js lines 36-47): `resourceMerger.Process(JSON.parse(
jsonProcessor.Process(template(msgContext))), replacementDictionary)`
wrapped as a `fhirResource` envelope; every step may throw. -/
def generateResult (env : Env) (msgContext : JVal) (template : CompiledT)
    (replacementDictionary : Option JVal) : Except String JVal :=
  match template msgContext with
  | .error e => .error e
  | .ok rendered =>
    match jsParseE (env.jsonProcess rendered) with
    | .error e => .error e
    | .ok parsed =>
      match env.merge parsed replacementDictionary with
      | .error e => .error e
      | .ok message => .ok (.obj [("fhirResource", message)])

/-- Model of `path.join(constants.TEMPLATE_FILES_LOCATION, name)`. -/
def pathJoin (a b : String) : String := a ++ "/" ++ b

/-- The `TEMPLATE_FILES_LOCATION` field of the constants object. -/
def tmplLocation (c : JVal) : String :=
  match objGet c "TEMPLATE_FILES_LOCATION" with
  | some (.str s) => s
  | _ => "undefined"

/-- Model of `getTemplate(templateName)` (worker.js lines 140-168): serve from the
compiled-template cache, otherwise read the source file (rejecting
`NotFound` when absent), compile it with a no-map engine instance
(rejecting `BadRequest` on compile errors, with nothing cached) and store
the compiled template before fulfilling. -/
def getTemplate (env : Env) (st : WState) (templateName : String) :
    Except RejectVal CompiledT × WState × List Ev :=
  match cacheGet st.compileCache templateName with
  | some template => (.ok template, st, [])
  | none =>
    let p := pathJoin (tmplLocation st.constants) templateName
    match env.fs p with
    | none => (.error (.descr 404 ⟨.NotFound, "Template not found"⟩), st, [Ev.readF p])
    | some templateContent =>
      let acq := GetHandlebarsInstance none st
      match env.compile acq.inst (env.preprocess templateContent) with
      | .error e =>
          (.error (bad400 ("Error during template compilation. " ++ e)), acq.st,
            Ev.readF p :: acq.evs ++ [Ev.compileCall])
      | .ok template =>
          (.ok template,
            { acq.st with compileCache := (templateName, template) :: acq.st.compileCache },
            Ev.readF p :: acq.evs ++ [Ev.compileCall])

/-- The outcome of one task execution: the events emitted in program
order, an error thrown out of the routing switch (if any), and the final
module state. -/
structure RunOut where
  events : List Ev
  thrown : Option String
  state : WState

/-- The settlement attempts of a run, in order. -/
def settlesOf (evs : List Ev) : List Settlement :=
  evs.filterMap fun e =>
    match e with
    | .settle s => some s
    | _ => none

/-- Promise semantics over a run: the first settlement attempt wins and
all later attempts are no-ops; an error thrown out of the executor
rejects the promise with the raw error unless it has already settled. -/
def outcome (r : RunOut) : Option Settlement :=
  match settlesOf r.events with
  | s :: _ => some s
  | [] => r.thrown.map fun e => .reject (.raw e)

/-- A task message, discriminated by `type`; optional fields are
JavaScript `undefined` when absent. -/
structure TaskMsg where
  type : String
  messageBase64 : Option String
  templateBase64 : Option String
  replacementDictionaryBase64 : Option String
  templatesMapBase64 : Option String
  messageContent : Option String
  templateName : String
  data : Option String

/-- The `replacementDictionary` block of the inline route (worker.js lines
65-71): default to an empty object; when the field is truthy, test its
alphabet (a failed test rejects but does not return), then decode and
parse it — a parse error is thrown to the enclosing catch. -/
def rdBlock (m : TaskMsg) : List Ev × Except String JVal :=
  match m.replacementDictionaryBase64 with
  | none => ([], .ok (.obj []))
  | some s =>
    if s.isEmpty then ([], .ok (.obj []))
    else
      let e := if b64Ok s then []
        else [Ev.settle (.reject (bad400 "replacementDictionary is not a base 64 encoded string."))]
      (e ++ [Ev.decodeF .replacementDictionary],
        match jsonParse (b64Decode s) with
        | some v => .ok v
        | none => .error "SyntaxError: Unexpected token in JSON")

/-- The `templatesMap` block of the inline route (worker.js lines 73-79):
`undefined` unless the field is truthy; alphabet test (non-returning
reject on failure), then decode and parse, throwing on a parse error. -/
def tmBlock (m : TaskMsg) : List Ev × Except String (Option JVal) :=
  match m.templatesMapBase64 with
  | none => ([], .ok none)
  | some s =>
    if s.isEmpty then ([], .ok none)
    else
      let e := if b64Ok s then []
        else [Ev.settle (.reject (bad400 "templatesMap is not a base 64 encoded string."))]
      (e ++ [Ev.decodeF .templatesMap],
        match jsonParse (b64Decode s) with
        | some v => .ok (some v)
        | none => .error "SyntaxError: Unexpected token in JSON")

/-- The message block of the inline route (worker.js lines 81-88): decode
and parse the message inside its own try/catch; on a throw the task is
rejected (non-returning) and `msgObj` stays the empty object. -/
def msgBlock (m : TaskMsg) : List Ev × JVal :=
  match bufferFrom m.messageBase64 with
  | .error e =>
      ([Ev.decodeF .message,
        Ev.settle (.reject (bad400 ("Unable to decode and parse HL7 v2 message. " ++ e)))],
       .obj [])
  | .ok decoded =>
    match jsonParse decoded with
    | some v => ([Ev.decodeF .message], v)
    | none =>
      ([Ev.decodeF .message,
        Ev.settle (.reject (bad400
          "Unable to decode and parse HL7 v2 message. SyntaxError: Unexpected token in JSON"))],
       .obj [])

/-- The template text of an inline task (worker.js lines 90-93): empty
string unless the field is truthy, otherwise the decoded bytes. -/
def templateTextBlock (m : TaskMsg) : List Ev × String :=
  match m.templateBase64 with
  | none => ([], "")
  | some s => if s.isEmpty then ([], "") else ([Ev.decodeF .template], b64Decode s)

/-- The `/api/convert/hl7` inline-conversion route (worker.js lines
52-118).  All rejects are non-returning: execution continues after a
rejection and only the first settlement wins.  Any throw lands in the
outer catch, which rejects with `BadRequest`. -/
def inlineRoute (env : Env) (st : WState) (m : TaskMsg) : RunOut :=
  let e1 := if b64Ok (coerceStr m.messageBase64) then []
    else [Ev.settle (.reject (bad400 "Message is not a base 64 encoded string."))]
  let e2 := if b64Ok (coerceStr m.templateBase64) then []
    else [Ev.settle (.reject (bad400 "Template is not a base 64 encoded string."))]
  match rdBlock m with
  | (e3, .error err) => ⟨e1 ++ e2 ++ e3 ++ [Ev.settle (.reject (bad400 err))], none, st⟩
  | (e3, .ok replacementDictionary) =>
    match tmBlock m with
    | (e4, .error err) =>
        ⟨e1 ++ e2 ++ e3 ++ e4 ++ [Ev.settle (.reject (bad400 err))], none, st⟩
    | (e4, .ok templatesMap) =>
      let (e5, msgObj) := msgBlock m
      let (e6, templateString) := templateTextBlock m
      let pre := e1 ++ e2 ++ e3 ++ e4 ++ e5 ++ e6
      if templateString = "" then
        match jsParseE (jsonStringify msgObj) with
        | .error err => ⟨pre ++ [Ev.settle (.reject (bad400 err))], none, st⟩
        | .ok copy =>
            ⟨pre ++ [Ev.settle (.fulfill (some (200, .obj [("fhirResource", copy)])))], none, st⟩
      else
        let acq := GetHandlebarsInstance templatesMap st
        match env.compile acq.inst (env.preprocess templateString) with
        | .error err =>
            ⟨pre ++ acq.evs ++ [Ev.compileCall, Ev.settle (.reject (bad400 err))], none, acq.st⟩
        | .ok template =>
          match generateResult env (.obj [("msg", msgObj)]) template (some replacementDictionary) with
          | .ok result =>
              ⟨pre ++ acq.evs ++ [Ev.compileCall,
                Ev.settle (.fulfill (some (200, result)))], none, acq.st⟩
          | .error err =>
              ⟨pre ++ acq.evs ++ [Ev.compileCall,
                Ev.settle (.reject (bad400 ("Unable to create result: " ++ err)))], none, acq.st⟩

/-- The `/api/convert/hl7/:template` named-conversion route (worker.js
lines 120-188): validate and parse the message (non-returning rejects),
resolve the compiled template through `getTemplate`, then assemble the
result, rejecting render errors as `BadRequest`. -/
def namedRoute (env : Env) (st : WState) (m : TaskMsg) : RunOut :=
  let e1 := if truthyOpt m.messageContent then []
    else [Ev.settle (.reject (bad400 "No message provided."))]
  let (e2, msgObject) :=
    match jsonParse (coerceStr m.messageContent) with
    | some v => (([] : List Ev), v)
    | none =>
        ([Ev.settle (.reject (bad400
          "Unable to decode and parse HL7 v2 message. SyntaxError: Unexpected token in JSON"))],
         JVal.obj [])
  match getTemplate env st m.templateName with
  | (.error rv, st2, e3) => ⟨e1 ++ e2 ++ e3 ++ [Ev.settle (.reject rv)], none, st2⟩
  | (.ok compiledTemplate, st2, e3) =>
    match generateResult env (.obj [("msg", msgObject)]) compiledTemplate none with
    | .ok result =>
        ⟨e1 ++ e2 ++ e3 ++ [Ev.settle (.fulfill (some (200, result)))], none, st2⟩
    | .error err =>
        ⟨e1 ++ e2 ++ e3 ++ [Ev.settle (.reject (bad400
          ("Error during template evaluation. " ++ err)))], none, st2⟩

/-- The worker task processor (worker.js lines 49-207): route one task by
its `type`.  `templatesUpdated` and `constantsUpdated` expire the cache
and fulfill with no payload; `constantsUpdated` first replaces the
constants object with the parsed payload, and its `JSON.parse` runs
outside any try/catch, so a parse error is thrown out of the switch.  An
unrecognized type leaves the promise pending forever. -/
def runWorker (env : Env) (st : WState) (m : TaskMsg) : RunOut :=
  if m.type = "/api/convert/hl7" then inlineRoute env st m
  else if m.type = "/api/convert/hl7/:template" then namedRoute env st m
  else if m.type = "templatesUpdated" then
    ⟨[Ev.settle (.fulfill none)], none, expireCache st⟩
  else if m.type = "constantsUpdated" then
    match jsonParse (coerceStr m.data) with
    | none => ⟨[], some "SyntaxError: Unexpected token in JSON", st⟩
    | some c => ⟨[Ev.settle (.fulfill none)], none, expireCache { st with constants := c }⟩
  else ⟨[], none, st⟩

/-- The task kinds the routing switch recognizes. -/
def recognizedType (t : String) : Bool :=
  t = "/api/convert/hl7" || t = "/api/convert/hl7/:template" ||
  t = "templatesUpdated" || t = "constantsUpdated"

/-- The replacementDictionary field is absent, empty, or decodes and
parses cleanly (no throw, no failed alphabet check). -/
def rdFieldOk (m : TaskMsg) : Bool :=
  match m.replacementDictionaryBase64 with
  | none => true
  | some s => s.isEmpty || (b64Ok s && (jsonParse (b64Decode s)).isSome)

/-- The templatesMap field is absent, empty, or decodes and parses
cleanly. -/
def tmFieldOk (m : TaskMsg) : Bool :=
  match m.templatesMapBase64 with
  | none => true
  | some s => s.isEmpty || (b64Ok s && (jsonParse (b64Decode s)).isSome)

/-- The base-64 field of an inline task referred to by a `FieldTag`. -/
def fieldB64 (m : TaskMsg) : FieldTag → Option String
  | .message => m.messageBase64
  | .template => m.templateBase64
  | .replacementDictionary => m.replacementDictionaryBase64
  | .templatesMap => m.templatesMapBase64

/-- The rejection message the worker uses for a failed alphabet check of
each field. -/
def fieldRejText : FieldTag → String
  | .message => "Message is not a base 64 encoded string."
  | .template => "Template is not a base 64 encoded string."
  | .replacementDictionary => "replacementDictionary is not a base 64 encoded string."
  | .templatesMap => "templatesMap is not a base 64 encoded string."

/-- The result-assembly pipeline in the order the spec describes it after
amendment (render the template to text, pass the rendered text through
the post-processing collaborator, parse the result as structured data,
pass it through the merge collaborator together with the replacement
mapping, and wrap the outcome as a `fhirResource` envelope), written as a
monadic pipeline from the spec's words for comparison with
`generateResult`. -/
def assemblePipelineSpec (env : Env) (msgContext : JVal) (template : CompiledT)
    (replacementMapping : Option JVal) : Except String JVal := do
  let rendered ← template msgContext
  let normalized := env.jsonProcess rendered
  let parsed ← jsParseE normalized
  let merged ← env.merge parsed replacementMapping
  return JVal.obj [("fhirResource", merged)]

/-- Claim C6 as stated: every present inline field that fails the
alphabet check causes a rejection whose message identifies that field
(and that rejection precedes any decoding of the field). -/
def claimC6Stated : Prop :=
  ∀ (env : Env) (st : WState) (m : TaskMsg) (f : FieldTag) (s : String),
    m.type = "/api/convert/hl7" → fieldB64 m f = some s → b64Ok s = false →
    Ev.settle (.reject (bad400 (fieldRejText f))) ∈ (runWorker env st m).events

/-- Claim C7 as stated: the assembler parses the rendered text itself as
structured data, so whenever the rendered text does not parse, the
assembly fails. -/
def claimC7Stated : Prop :=
  ∀ (env : Env) (msgContext : JVal) (template : CompiledT)
    (replacementMapping : Option JVal) (rendered : String),
    template msgContext = .ok rendered →
    (∃ e, jsParseE rendered = .error e) →
    ∃ e2, generateResult env msgContext template replacementMapping = .error e2

/-- Every rejection attempt among the given events carries a structured
`(status, kind, message)` descriptor with status 400 or 404. -/
def structuredRejects (l : List Ev) : Prop :=
  ∀ rv, Ev.settle (.reject rv) ∈ l →
    ∃ status err, rv = .descr status err ∧ (status = 400 ∨ status = 404)

/-- Claim C8 as stated: every settled failure is a structured descriptor
with status 400 or 404. -/
def claimC8Stated : Prop :=
  ∀ (env : Env) (st : WState) (m : TaskMsg) (rv : RejectVal),
    outcome (runWorker env st m) = some (.reject rv) →
    ∃ status err, rv = .descr status err ∧ (status = 400 ∨ status = 404)

/-- A trivial collaborator environment for concrete runs: no template
files, identity pre- and post-processing, a compiler whose templates
always render `"1"`, and a merger that returns its input unchanged. -/
def env0 : Env :=
  ⟨fun _ => none, id, fun _ _ => .ok (fun _ => .ok "1"), id, fun j _ => .ok j⟩

/-- A collaborator environment whose post-processor rewrites every
rendered text to the JSON text `"1"` (used to separate the actual
pipeline order from the spec's stated order). -/
def envRepair : Env :=
  ⟨fun _ => none, id, fun _ _ => .ok (fun _ => .ok "1"), fun _ => "1", fun j _ => .ok j⟩

/-- A compiled template rendering the non-JSON text `"x"`. -/
def tmplX : CompiledT := fun _ => .ok "x"

/-- A concrete baseline worker state: contamination flag clear, shared
handle 0, empty cache, constants giving template location `tpl`. -/
def st0 : WState :=
  ⟨false, ⟨0, none⟩, 1, [], .obj [("TEMPLATE_FILES_LOCATION", .str "tpl")]⟩

/-- A concrete cached compiled template and a state caching it under
`cached.hbs`. -/
def tmplOne : CompiledT := fun _ => .ok "1"

def stCached : WState :=
  ⟨false, ⟨0, none⟩, 1, [("cached.hbs", tmplOne)],
    .obj [("TEMPLATE_FILES_LOCATION", .str "tpl")]⟩

/-- An environment with one template file `tpl/a.hbs` whose compiler
always succeeds. -/
def envFs : Env :=
  ⟨fun p => if p = "tpl/a.hbs" then some "SRC" else none, id,
    fun _ _ => .ok tmplOne, id, fun j _ => .ok j⟩

/-- An inline task with no fields beyond a type. -/
def mkTask (ty : String) : TaskMsg := ⟨ty, none, none, none, none, none, "", none⟩

/-- The concrete inline task of the C5 scenario: message = base64 of
the object text with field a mapped to 1, template = base64 of the empty
string. -/
def taskC5 : TaskMsg :=
  ⟨"/api/convert/hl7", some "eyJhIjoxfQ==", some "", none, none, none, "", none⟩

/-- The concrete inline task refuting C6 as stated: a well-formed message
and empty template, a replacementDictionary that passes the alphabet
check but decodes to non-JSON text, and a templatesMap with characters
outside the alphabet. -/
def taskC6 : TaskMsg :=
  ⟨"/api/convert/hl7", some "eyJhIjoxfQ==", some "", some "bm90IGpzb24=", some "!!!",
    none, "", none⟩

/-- The concrete inline task of the C6 scenario: a message field with
characters outside the base-64 alphabet. -/
def taskC6w : TaskMsg :=
  ⟨"/api/convert/hl7", some "!!!", some "", none, none, none, "", none⟩

/-- The concrete constants-updated task with an unparsable payload. -/
def taskC8 : TaskMsg :=
  ⟨"constantsUpdated", none, none, none, none, none, "", some "\x7b"⟩

/-! ### Decimal digit printing and parsing -/

theorem natDigitsAux_small {n : Nat} (h : n < 10) (acc : List Char) :
    natDigitsAux n acc = digitChar n :: acc := by
  rw [natDigitsAux]
  exact dif_pos h

theorem natDigitsAux_large {n : Nat} (h : ¬ n < 10) (acc : List Char) :
    natDigitsAux n acc = natDigitsAux (n / 10) (digitChar (n % 10) :: acc) := by
  rw [natDigitsAux]
  exact dif_neg h

theorem natDigitsAux_append (n : Nat) : ∀ acc, natDigitsAux n acc = natDigits n ++ acc := by
  induction n using Nat.strong_induction_on with
  | _ n ih =>
    intro acc
    by_cases h : n < 10
    · rw [natDigitsAux_small h, natDigits, natDigitsAux_small h]
      rfl
    · have hlt : n / 10 < n := Nat.div_lt_self (by omega) (by omega)
      rw [natDigitsAux_large h, natDigits, natDigitsAux_large h, ih (n / 10) hlt,
        ih (n / 10) hlt]
      simp

theorem natDigits_small {n : Nat} (h : n < 10) : natDigits n = [digitChar n] := by
  rw [natDigits, natDigitsAux]
  simp [h]

theorem natDigits_large {n : Nat} (h : ¬ n < 10) :
    natDigits n = natDigits (n / 10) ++ [digitChar (n % 10)] := by
  conv_lhs => rw [natDigits, natDigitsAux]
  simp only [h, dif_neg, not_false_iff]
  rw [natDigitsAux_append]

theorem digitChar_isDigit {d : Nat} (h : d < 10) : (digitChar d).isDigit = true := by
  interval_cases d <;> decide

theorem digitVal_digitChar {d : Nat} (h : d < 10) : digitVal (digitChar d) = d := by
  interval_cases d <;> decide

theorem natDigits_all_digits (n : Nat) : ∀ c ∈ natDigits n, c.isDigit = true := by
  induction n using Nat.strong_induction_on with
  | _ n ih =>
    by_cases h : n < 10
    · rw [natDigits_small h]
      intro c hc
      simp only [List.mem_singleton] at hc
      subst hc
      exact digitChar_isDigit h
    · rw [natDigits_large h]
      intro c hc
      rcases List.mem_append.mp hc with h1 | h1
      · exact ih (n / 10) (Nat.div_lt_self (by omega) (by omega)) c h1
      · simp only [List.mem_singleton] at h1
        subst h1
        exact digitChar_isDigit (Nat.mod_lt _ (by omega))

theorem natDigits_ne_nil (n : Nat) : natDigits n ≠ [] := by
  by_cases h : n < 10
  · rw [natDigits_small h]; simp
  · rw [natDigits_large h]; simp

theorem ne_of_digit {c x : Char} (hc : c.isDigit = true) (hx : x.isDigit = false) :
    c ≠ x := by
  intro h
  subst h
  rw [hc] at hx
  cases hx

theorem isWs_of_digit {c : Char} (hc : c.isDigit = true) : isWs c = false := by
  have h1 : c ≠ ' ' := ne_of_digit hc (by decide)
  have h2 : c ≠ '\n' := ne_of_digit hc (by decide)
  have h3 : c ≠ '\t' := ne_of_digit hc (by decide)
  have h4 : c ≠ '\r' := ne_of_digit hc (by decide)
  simp [isWs, h1, h2, h3, h4]

theorem readDigits_spec (ds : List Char) (rest : List Char)
    (hd : ∀ c ∈ ds, c.isDigit = true) (hr : headNotDigit rest = true) :
    ∀ acc, readDigits (ds ++ rest) acc =
      (ds.foldl (fun a c => a * 10 + digitVal c) acc, rest) := by
  induction ds with
  | nil =>
    intro acc
    cases rest with
    | nil => rfl
    | cons c cs =>
      simp only [headNotDigit, Bool.not_eq_true'] at hr
      simp [readDigits, hr]
  | cons d ds ih =>
    intro acc
    have hdd : d.isDigit = true := hd d (by simp)
    have step : readDigits ((d :: ds) ++ rest) acc =
        readDigits (ds ++ rest) (acc * 10 + digitVal d) := by
      show readDigits (d :: (ds ++ rest)) acc = _
      rw [readDigits, if_pos hdd]
    rw [step, ih (fun c hc => hd c (by simp [hc]))]
    rfl

theorem foldl_natDigits (n : Nat) :
    (natDigits n).foldl (fun a c => a * 10 + digitVal c) 0 = n := by
  induction n using Nat.strong_induction_on with
  | _ n ih =>
    by_cases h : n < 10
    · rw [natDigits_small h]
      simp [digitVal_digitChar h]
    · rw [natDigits_large h, List.foldl_append]
      rw [ih (n / 10) (Nat.div_lt_self (by omega) (by omega))]
      simp only [List.foldl_cons, List.foldl_nil]
      rw [digitVal_digitChar (Nat.mod_lt _ (by omega))]
      omega

theorem readDigits_natDigits (n : Nat) (rest : List Char) (hr : headNotDigit rest = true) :
    readDigits (natDigits n ++ rest) 0 = (n, rest) := by
  rw [readDigits_spec (natDigits n) rest (natDigits_all_digits n) hr 0, foldl_natDigits]

/-! ### JSON string bodies and whitespace -/

theorem skipWs_cons {c : Char} (h : isWs c = false) (l : List Char) :
    skipWs (c :: l) = c :: l := by
  rw [skipWs]
  simp [h]

theorem mk_data (s : String) : String.mk s.data = s := rfl

theorem parseStrBody_escChars (l : List Char) :
    ∀ rest, parseStrBody (escChars l ++ '"' :: rest) = some (l, rest) := by
  induction l with
  | nil =>
    intro rest
    show parseStrBody ('"' :: rest) = some ([], rest)
    rw [parseStrBody.eq_def]
    simp
  | cons c l ih =>
    intro rest
    by_cases hc : c = '"' ∨ c = '\\'
    · have he : escChar c = ['\\', c] := by rw [escChar, if_pos hc]
      show parseStrBody ((escChar c ++ escChars l) ++ '"' :: rest) = _
      rw [he]
      have hl : (['\\', c] ++ escChars l) ++ '"' :: rest =
          '\\' :: c :: (escChars l ++ '"' :: rest) := by simp
      rw [hl, parseStrBody.eq_def]
      rcases hc with hc | hc <;> subst hc <;>
        simp [unesc, ih rest]
    · have he : escChar c = [c] := by rw [escChar, if_neg hc]
      push_neg at hc
      show parseStrBody ((escChar c ++ escChars l) ++ '"' :: rest) = _
      rw [he]
      have hl : ([c] ++ escChars l) ++ '"' :: rest = c :: (escChars l ++ '"' :: rest) := by
        simp
      rw [hl, parseStrBody.eq_def]
      simp [hc.1, hc.2, ih rest]

/-! ### Head-dispatch lemmas for the JSON parser -/

theorem parseVal_nullHead (f : Nat) (r : List Char) :
    parseVal (f + 1) ('n' :: 'u' :: 'l' :: 'l' :: r) = some (.null, r) := rfl

theorem parseVal_trueHead (f : Nat) (r : List Char) :
    parseVal (f + 1) ('t' :: 'r' :: 'u' :: 'e' :: r) = some (.bool true, r) := rfl

theorem parseVal_falseHead (f : Nat) (r : List Char) :
    parseVal (f + 1) ('f' :: 'a' :: 'l' :: 's' :: 'e' :: r) = some (.bool false, r) := rfl

theorem parseVal_quoteHead (f : Nat) (r : List Char) :
    parseVal (f + 1) ('"' :: r) =
      (parseStrBody r).map fun p => (.str (String.mk p.1), p.2) := rfl

theorem parseVal_digitHead (f : Nat) {c : Char} (r : List Char) (hc : c.isDigit = true) :
    parseVal (f + 1) (c :: r) =
      some (.num ((readDigits (c :: r) 0).1 : Int), (readDigits (c :: r) 0).2) := by
  rw [parseVal]
  rw [skipWs_cons (isWs_of_digit hc)]
  simp only
  rw [if_neg (ne_of_digit hc (by decide)), if_neg (ne_of_digit hc (by decide)),
    if_neg (ne_of_digit hc (by decide)), if_neg (ne_of_digit hc (by decide)),
    if_neg (ne_of_digit hc (by decide)), if_pos hc]

theorem parseVal_negHead (f : Nat) {d : Char} (r : List Char) (hd : d.isDigit = true) :
    parseVal (f + 1) ('-' :: d :: r) =
      some (.num (-((readDigits (d :: r) 0).1 : Int)), (readDigits (d :: r) 0).2) := by
  rw [parseVal, skipWs_cons (by decide)]
  simp [hd]

theorem parseVal_arrNil (f : Nat) (r : List Char) :
    parseVal (f + 1) ('[' :: ']' :: r) = some (.arr [], r) := rfl

theorem parseVal_arrCons (f : Nat) {c : Char} (t : List Char) (hws : isWs c = false)
    (hne : c ≠ ']') :
    parseVal (f + 1) ('[' :: c :: t) =
      (parseElems f (c :: t)).map fun p => (.arr p.1, p.2) := by
  rw [parseVal, skipWs_cons (by decide)]
  simp [hne, skipWs_cons hws]

theorem parseVal_objNil (f : Nat) (r : List Char) :
    parseVal (f + 1) (lbr :: rbr :: r) = some (.obj [], r) := by
  rw [parseVal, skipWs_cons (by decide)]
  simp +decide [skipWs_cons (show isWs rbr = false by decide)]

theorem parseVal_objCons (f : Nat) {c : Char} (t : List Char) (hws : isWs c = false)
    (hne : c ≠ rbr) :
    parseVal (f + 1) (lbr :: c :: t) =
      (parseMembers f (c :: t)).map fun p => (.obj p.1, p.2) := by
  rw [parseVal, skipWs_cons (by decide)]
  simp +decide [hne, skipWs_cons hws]

/-! ### Size bookkeeping and head shapes -/

theorem sizeArr_nil : sizeArr [] = 0 := rfl

theorem sizeArr_cons (x : JVal) (xs : List JVal) :
    sizeArr (x :: xs) = 1 + sizeJ x + sizeArr xs := by rw [sizeArr]

theorem sizeObj_nil : sizeObj [] = 0 := rfl

theorem sizeObj_cons (kv : String × JVal) (xs : List (String × JVal)) :
    sizeObj (kv :: xs) = 1 + sizeJ kv.2 + sizeObj xs := by rw [sizeObj]

theorem sizeJ_arr (xs : List JVal) : sizeJ (.arr xs) = 1 + sizeArr xs := by rw [sizeJ]

theorem sizeJ_obj (fs : List (String × JVal)) : sizeJ (.obj fs) = 1 + sizeObj fs := by
  rw [sizeJ]

theorem sizeJ_pos (v : JVal) : 1 ≤ sizeJ v := by
  cases v <;> rw [sizeJ] <;> omega

/-- Every printed JSON value begins with a character that is not
whitespace, not `]`, and not the closing brace. -/
theorem strJ_shape (v : JVal) :
    ∃ c t, strJ v = c :: t ∧ isWs c = false ∧ c ≠ ']' ∧ c ≠ rbr := by
  cases v with
  | null => exact ⟨'n', _, rfl, by decide, by decide, by decide⟩
  | bool b =>
    cases b
    · exact ⟨'f', _, rfl, by decide, by decide, by decide⟩
    · exact ⟨'t', _, rfl, by decide, by decide, by decide⟩
  | num n =>
    rw [strJ]
    by_cases hn : n < 0
    · rw [intChars, if_pos hn]
      exact ⟨'-', _, rfl, by decide, by decide, by decide⟩
    · rw [intChars, if_neg hn]
      rcases hd : natDigits n.natAbs with _ | ⟨c, t⟩
      · exact absurd hd (natDigits_ne_nil _)
      · have hc : c.isDigit = true := natDigits_all_digits _ c (by rw [hd]; simp)
        exact ⟨c, t, rfl, isWs_of_digit hc, ne_of_digit hc (by decide),
          ne_of_digit hc (by decide)⟩
  | str s => exact ⟨'"', _, rfl, by decide, by decide, by decide⟩
  | arr xs => exact ⟨'[', _, rfl, by decide, by decide, by decide⟩
  | obj fs => exact ⟨lbr, _, rfl, by decide, by decide, by decide⟩

/-- The printed form of a value is at least as long as its size (so the
fuel supplied by `jsonParse` suffices for the roundtrip). -/
theorem sizeJ_le_strJ_length :
    ∀ n, (∀ v, sizeJ v ≤ n → sizeJ v ≤ (strJ v).length) ∧
      (∀ xs, sizeArr xs ≤ n → sizeArr xs ≤ (strArr xs).length + 1) ∧
      (∀ fs, sizeObj fs ≤ n → sizeObj fs ≤ (strObj fs).length + 1) := by
  intro n
  induction n with
  | zero =>
    refine ⟨fun v hv => ?_, fun xs hxs => ?_, fun fs hfs => ?_⟩
    · have := sizeJ_pos v; omega
    · cases xs with
      | nil => simp [sizeArr_nil, strArr]
      | cons x xs => rw [sizeArr_cons] at hxs; have := sizeJ_pos x; omega
    · cases fs with
      | nil => simp [sizeObj_nil, strObj]
      | cons kv fs => rw [sizeObj_cons] at hfs; have := sizeJ_pos kv.2; omega
  | succ n ih =>
    obtain ⟨ihV, ihA, ihO⟩ := ih
    refine ⟨fun v hv => ?_, fun xs hxs => ?_, fun fs hfs => ?_⟩
    · cases v with
      | null => simp [sizeJ, strJ]
      | bool b => cases b <;> simp [sizeJ, strJ]
      | num m =>
        rw [sizeJ]
        rw [strJ]
        rcases hd : intChars m with _ | ⟨c, t⟩
        · exfalso
          rw [intChars] at hd
          split at hd
          · simp at hd
          · exact natDigits_ne_nil _ hd
        · simp
      | str s => simp [sizeJ, strJ]
      | arr xs =>
        rw [sizeJ_arr] at hv ⊢
        rw [strJ]
        have h1 : sizeArr xs ≤ n := by omega
        have := ihA xs h1
        simp only [List.length_cons, List.length_append, List.length_singleton]
        omega
      | obj fs =>
        rw [sizeJ_obj] at hv ⊢
        rw [strJ]
        have h1 : sizeObj fs ≤ n := by omega
        have := ihO fs h1
        simp only [List.length_cons, List.length_append, List.length_singleton]
        omega
    · cases xs with
      | nil => simp [sizeArr_nil]
      | cons x xs =>
        rw [sizeArr_cons] at hxs ⊢
        have hx : sizeJ x ≤ n := by have := sizeJ_pos x; omega
        have h1 := ihV x hx
        cases xs with
        | nil =>
          rw [strArr]
          rw [sizeArr_nil]
          omega
        | cons y ys =>
          rw [strArr]
          have h2 : sizeArr (y :: ys) ≤ n := by have := sizeJ_pos x; omega
          have := ihA (y :: ys) h2
          simp only [List.length_append, List.length_cons]
          omega
    · cases fs with
      | nil => simp [sizeObj_nil]
      | cons kv fs =>
        rw [sizeObj_cons] at hfs ⊢
        have hx : sizeJ kv.2 ≤ n := by have := sizeJ_pos kv.2; omega
        have h1 := ihV kv.2 hx
        cases fs with
        | nil =>
          rw [strObj]
          rw [sizeObj_nil]
          simp only [List.length_cons, List.length_append]
          omega
        | cons kv2 fs2 =>
          rw [strObj]
          have h2 : sizeObj (kv2 :: fs2) ≤ n := by have := sizeJ_pos kv.2; omega
          have := ihO (kv2 :: fs2) h2
          simp only [List.length_append, List.length_cons]
          omega

/-! ### The printer-parser roundtrip -/

theorem strArr_cons_shape (x : JVal) (xs : List JVal) :
    ∃ t1, strArr (x :: xs) = strJ x ++ t1 := by
  cases xs with
  | nil => exact ⟨[], by rw [strArr]; simp⟩
  | cons y ys => exact ⟨',' :: strArr (y :: ys), by rw [strArr]⟩

theorem strObj_cons_shape (kv : String × JVal) (fs : List (String × JVal)) :
    ∃ t1, strObj (kv :: fs) = '"' :: t1 := by
  cases fs with
  | nil => exact ⟨_, by rw [strObj]⟩
  | cons kv2 fs2 =>
    exact ⟨(escChars kv.1.data ++ '"' :: ':' :: strJ kv.2) ++ ',' :: strObj (kv2 :: fs2),
      by rw [strObj]; rfl⟩

theorem parse_print :
    ∀ f, (∀ v rest, sizeJ v ≤ f → headNotDigit rest = true →
            parseVal f (strJ v ++ rest) = some (v, rest)) ∧
         (∀ xs rest, xs ≠ [] → sizeArr xs ≤ f →
            parseElems f (strArr xs ++ ']' :: rest) = some (xs, rest)) ∧
         (∀ fs rest, fs ≠ [] → sizeObj fs ≤ f →
            parseMembers f (strObj fs ++ rbr :: rest) = some (fs, rest)) := by
  intro f
  induction f with
  | zero =>
    refine ⟨fun v rest hv _ => ?_, fun xs rest hne hxs => ?_, fun fs rest hne hfs => ?_⟩
    · have := sizeJ_pos v; omega
    · cases xs with
      | nil => exact absurd rfl hne
      | cons x xs => rw [sizeArr_cons] at hxs; have := sizeJ_pos x; omega
    · cases fs with
      | nil => exact absurd rfl hne
      | cons kv fs => rw [sizeObj_cons] at hfs; have := sizeJ_pos kv.2; omega
  | succ f ih =>
    obtain ⟨ihV, ihA, ihO⟩ := ih
    refine ⟨fun v rest hv hrest => ?_, fun xs rest hne hxs => ?_, fun fs rest hne hfs => ?_⟩
    · cases v with
      | null =>
        have hl : strJ .null ++ rest = 'n' :: 'u' :: 'l' :: 'l' :: rest := by rw [strJ]; rfl
        rw [hl, parseVal_nullHead]
      | bool b =>
        cases b
        · have hl : strJ (.bool false) ++ rest = 'f' :: 'a' :: 'l' :: 's' :: 'e' :: rest := by
            rw [strJ]; rfl
          rw [hl, parseVal_falseHead]
        · have hl : strJ (.bool true) ++ rest = 't' :: 'r' :: 'u' :: 'e' :: rest := by
            rw [strJ]; rfl
          rw [hl, parseVal_trueHead]
      | num m =>
        by_cases hm : m < 0
        · rcases hd : natDigits m.natAbs with _ | ⟨c, t⟩
          · exact absurd hd (natDigits_ne_nil _)
          have hc : c.isDigit = true := natDigits_all_digits _ c (by rw [hd]; simp)
          have hl : strJ (.num m) ++ rest = '-' :: c :: (t ++ rest) := by
            rw [strJ, intChars, if_pos hm, hd]; rfl
          rw [hl, parseVal_negHead f _ hc]
          have hrd : readDigits (c :: (t ++ rest)) 0 = (m.natAbs, rest) := by
            have hx : c :: (t ++ rest) = natDigits m.natAbs ++ rest := by rw [hd]; rfl
            rw [hx, readDigits_natDigits _ _ hrest]
          rw [hrd]
          have hmm : -((m.natAbs : Nat) : Int) = m := by omega
          rw [hmm]
        · rcases hd : natDigits m.natAbs with _ | ⟨c, t⟩
          · exact absurd hd (natDigits_ne_nil _)
          have hc : c.isDigit = true := natDigits_all_digits _ c (by rw [hd]; simp)
          have hl : strJ (.num m) ++ rest = c :: (t ++ rest) := by
            rw [strJ, intChars, if_neg hm, hd]; rfl
          rw [hl, parseVal_digitHead f _ hc]
          have hrd : readDigits (c :: (t ++ rest)) 0 = (m.natAbs, rest) := by
            have hx : c :: (t ++ rest) = natDigits m.natAbs ++ rest := by rw [hd]; rfl
            rw [hx, readDigits_natDigits _ _ hrest]
          rw [hrd]
          have hmm : ((m.natAbs : Nat) : Int) = m := by omega
          rw [hmm]
      | str s =>
        have hl : strJ (.str s) ++ rest = '"' :: (escChars s.data ++ '"' :: rest) := by
          rw [strJ]; simp
        rw [hl, parseVal_quoteHead, parseStrBody_escChars]
        simp [mk_data]
      | arr xs =>
        cases xs with
        | nil =>
          have hl : strJ (.arr []) ++ rest = '[' :: ']' :: rest := by
            rw [strJ, strArr]; rfl
          rw [hl, parseVal_arrNil]
        | cons x xs =>
          obtain ⟨t1, ht1⟩ := strArr_cons_shape x xs
          obtain ⟨c, t0, hct, hws, hne1, _⟩ := strJ_shape x
          have hsa : strArr (x :: xs) = c :: (t0 ++ t1) := by rw [ht1, hct]; rfl
          have hl : strJ (.arr (x :: xs)) ++ rest =
              '[' :: c :: ((t0 ++ t1) ++ ']' :: rest) := by
            rw [strJ, hsa]; simp
          rw [hl, parseVal_arrCons f _ hws hne1]
          have hback : c :: ((t0 ++ t1) ++ ']' :: rest) = strArr (x :: xs) ++ ']' :: rest := by
            rw [hsa]; rfl
          rw [hback, ihA (x :: xs) rest (by simp) (by rw [sizeJ_arr] at hv; omega)]
          rfl
      | obj fs =>
        cases fs with
        | nil =>
          have hl : strJ (.obj []) ++ rest = lbr :: rbr :: rest := by
            rw [strJ, strObj]; rfl
          rw [hl, parseVal_objNil]
        | cons kv fs =>
          obtain ⟨t1, ht1⟩ := strObj_cons_shape kv fs
          have hl : strJ (.obj (kv :: fs)) ++ rest =
              lbr :: '"' :: (t1 ++ rbr :: rest) := by
            rw [strJ, ht1]; simp
          rw [hl, parseVal_objCons f _ (by decide) (by decide)]
          have hback : '"' :: (t1 ++ rbr :: rest) = strObj (kv :: fs) ++ rbr :: rest := by
            rw [ht1]; rfl
          rw [hback, ihO (kv :: fs) rest (by simp) (by rw [sizeJ_obj] at hv; omega)]
          rfl
    · cases xs with
      | nil => exact absurd rfl hne
      | cons x xs =>
        cases xs with
        | nil =>
          have hcs : strArr [x] ++ ']' :: rest = strJ x ++ ']' :: rest := by rw [strArr]
          have h1 : parseVal f (strJ x ++ ']' :: rest) = some (x, ']' :: rest) :=
            ihV x (']' :: rest) (by rw [sizeArr_cons] at hxs; omega) rfl
          rw [parseElems, hcs, h1]
          simp [skipWs_cons (show isWs ']' = false by decide)]
        | cons y ys =>
          have hcs : strArr (x :: y :: ys) ++ ']' :: rest =
              strJ x ++ (',' :: (strArr (y :: ys) ++ ']' :: rest)) := by
            rw [strArr]; simp
          have h1 : parseVal f (strJ x ++ (',' :: (strArr (y :: ys) ++ ']' :: rest))) =
              some (x, ',' :: (strArr (y :: ys) ++ ']' :: rest)) :=
            ihV x _ (by rw [sizeArr_cons] at hxs; omega) rfl
          have h2 : parseElems f (strArr (y :: ys) ++ ']' :: rest) = some (y :: ys, rest) :=
            ihA (y :: ys) rest (by simp)
              (by rw [sizeArr_cons] at hxs; have := sizeJ_pos x; omega)
          rw [parseElems, hcs, h1]
          simp [skipWs_cons (show isWs ',' = false by decide), h2]
    · cases fs with
      | nil => exact absurd rfl hne
      | cons kv fs =>
        cases fs with
        | nil =>
          have hcs : strObj [kv] ++ rbr :: rest =
              '"' :: (escChars kv.1.data ++ '"' :: (':' :: (strJ kv.2 ++ rbr :: rest))) := by
            rw [strObj]; simp
          have h1 : parseVal f (strJ kv.2 ++ rbr :: rest) = some (kv.2, rbr :: rest) :=
            ihV kv.2 _ (by rw [sizeObj_cons] at hfs; omega) rfl
          rw [parseMembers, hcs, skipWs_cons (show isWs '"' = false by decide)]
          simp +decide [parseStrBody_escChars,
            skipWs_cons (show isWs ':' = false by decide), h1,
            skipWs_cons (show isWs rbr = false by decide), mk_data]
        | cons kv2 fs2 =>
          have hcs : strObj (kv :: kv2 :: fs2) ++ rbr :: rest =
              '"' :: (escChars kv.1.data ++ '"' ::
                (':' :: (strJ kv.2 ++ ',' :: (strObj (kv2 :: fs2) ++ rbr :: rest)))) := by
            rw [strObj]; simp
          have h1 : parseVal f (strJ kv.2 ++ ',' :: (strObj (kv2 :: fs2) ++ rbr :: rest)) =
              some (kv.2, ',' :: (strObj (kv2 :: fs2) ++ rbr :: rest)) :=
            ihV kv.2 _ (by rw [sizeObj_cons] at hfs; omega) rfl
          have h2 : parseMembers f (strObj (kv2 :: fs2) ++ rbr :: rest) =
              some (kv2 :: fs2, rest) :=
            ihO (kv2 :: fs2) rest (by simp)
              (by rw [sizeObj_cons] at hfs; have := sizeJ_pos kv.2; omega)
          rw [parseMembers, hcs, skipWs_cons (show isWs '"' = false by decide)]
          simp +decide [parseStrBody_escChars,
            skipWs_cons (show isWs ':' = false by decide), h1,
            skipWs_cons (show isWs ',' = false by decide), h2, mk_data]

/-- Parsing inverts printing: the deep copy
`JSON.parse(JSON.stringify(x))` of worker.js line 98 returns the value
unchanged. -/
theorem jsonParse_stringify (v : JVal) : jsonParse (jsonStringify v) = some v := by
  have hsz : sizeJ v ≤ 2 * (jsonStringify v).length + 2 := by
    have h1 := (sizeJ_le_strJ_length (sizeJ v)).1 v (le_refl _)
    have h2 : (jsonStringify v).length = (strJ v).length := rfl
    omega
  have h := (parse_print (2 * (jsonStringify v).length + 2)).1 v [] hsz rfl
  rw [List.append_nil] at h
  have hdata : (jsonStringify v).data = strJ v := rfl
  rw [jsonParse, hdata, h]
  rfl

/-- The deep copy as a throwing operation never throws. -/
theorem jsParseE_stringify (v : JVal) : jsParseE (jsonStringify v) = .ok v := by
  rw [jsParseE, jsonParse_stringify]

/-! ### Router dispatch -/

theorem runWorker_inline {m : TaskMsg} (env : Env) (st : WState)
    (h : m.type = "/api/convert/hl7") : runWorker env st m = inlineRoute env st m := by
  rw [runWorker, if_pos h]

theorem runWorker_named {m : TaskMsg} (env : Env) (st : WState)
    (h : m.type = "/api/convert/hl7/:template") :
    runWorker env st m = namedRoute env st m := by
  rw [runWorker, if_neg (by rw [h]; decide), if_pos h]

theorem runWorker_templatesUpdated {m : TaskMsg} (env : Env) (st : WState)
    (h : m.type = "templatesUpdated") :
    runWorker env st m = ⟨[Ev.settle (.fulfill none)], none, expireCache st⟩ := by
  rw [runWorker, if_neg (by rw [h]; decide), if_neg (by rw [h]; decide), if_pos h]

theorem runWorker_constantsUpdated {m : TaskMsg} (env : Env) (st : WState)
    (h : m.type = "constantsUpdated") :
    runWorker env st m =
      match jsonParse (coerceStr m.data) with
      | none => ⟨[], some "SyntaxError: Unexpected token in JSON", st⟩
      | some c => ⟨[Ev.settle (.fulfill none)], none, expireCache { st with constants := c }⟩ := by
  rw [runWorker, if_neg (by rw [h]; decide), if_neg (by rw [h]; decide),
    if_neg (by rw [h]; decide), if_pos h]

theorem runWorker_unrecognized {m : TaskMsg} (env : Env) (st : WState)
    (h : recognizedType m.type = false) : runWorker env st m = ⟨[], none, st⟩ := by
  rw [recognizedType] at h
  simp only [Bool.or_eq_false_iff, decide_eq_false_iff_not] at h
  rw [runWorker, if_neg h.1.1.1, if_neg h.1.1.2, if_neg h.1.2, if_neg h.2]

theorem settlesOf_append (a b : List Ev) :
    settlesOf (a ++ b) = settlesOf a ++ settlesOf b := by
  simp [settlesOf]

theorem GetHandlebarsInstance_compileCache (M : Option JVal) (st : WState) :
    (GetHandlebarsInstance M st).st.compileCache = st.compileCache := by
  cases hn : needToUseMap M <;> cases hrb : st.rebuildCache <;>
    simp [GetHandlebarsInstance, converterInstance, hn, hrb]

theorem GetHandlebarsInstance_constants (M : Option JVal) (st : WState) :
    (GetHandlebarsInstance M st).st.constants = st.constants := by
  cases hn : needToUseMap M <;> cases hrb : st.rebuildCache <;>
    simp [GetHandlebarsInstance, converterInstance, hn, hrb]

theorem cacheGet_cons_self (n : String) (t : CompiledT) (c : List (String × CompiledT)) :
    cacheGet ((n, t) :: c) n = some t := by
  simp [cacheGet]

/-! ### Claim theorems -/

/-- Claim C1: engine handle acquisition follows the three-case algorithm —
a present non-empty override map builds a brand-new configured handle and
sets the contamination flag; with the map absent or empty, a set flag
forces one rebuild and clears the flag, and a clear flag returns the
shared handle with the state untouched; hence two consecutive no-map
acquisitions return the same handle. -/
theorem c1_engine_acquisition (st : WState) (M : Option JVal) :
    ((∃ v, M = some v ∧ isPlainObject v = true ∧ jsEntries v ≠ []) →
      (GetHandlebarsInstance M st).inst = ⟨st.nextId, M⟩ ∧
      (GetHandlebarsInstance M st).st.rebuildCache = true ∧
      (GetHandlebarsInstance M st).st.shared = ⟨st.nextId, M⟩ ∧
      (GetHandlebarsInstance M st).st.nextId = st.nextId + 1) ∧
    ((M = none ∨ M = some (.obj [])) → st.rebuildCache = true →
      (GetHandlebarsInstance M st).inst = ⟨st.nextId, M⟩ ∧
      (GetHandlebarsInstance M st).st.rebuildCache = false ∧
      (GetHandlebarsInstance M st).st.shared = ⟨st.nextId, M⟩) ∧
    ((M = none ∨ M = some (.obj [])) → st.rebuildCache = false →
      (GetHandlebarsInstance M st).inst = st.shared ∧
      (GetHandlebarsInstance M st).st = st) ∧
    ((GetHandlebarsInstance none (GetHandlebarsInstance none st).st).inst =
      (GetHandlebarsInstance none st).inst) := by
  obtain ⟨rb, sh, ni, cc, co⟩ := st
  refine ⟨?_, ?_, ?_, ?_⟩
  · rintro ⟨v, rfl, hpl, hne⟩
    obtain ⟨fs, rfl⟩ : ∃ fs, v = .obj fs := by
      cases v <;> simp [isPlainObject] at hpl ⊢
    have hfs : fs ≠ [] := by simpa [jsEntries] using hne
    have hn : needToUseMap (some (.obj fs)) = true := by
      cases fs with
      | nil => exact absurd rfl hfs
      | cons kv fs => simp [needToUseMap, truthyJ, jsEntries, isPlainObject]
    simp [GetHandlebarsInstance, converterInstance, hn]
  · rintro h rfl
    have hn : needToUseMap M = false := by
      rcases h with rfl | rfl <;> simp [needToUseMap, truthyJ, jsEntries]
    simp [GetHandlebarsInstance, converterInstance, hn]
  · rintro h rfl
    have hn : needToUseMap M = false := by
      rcases h with rfl | rfl <;> simp [needToUseMap, truthyJ, jsEntries]
    simp [GetHandlebarsInstance, converterInstance, hn]
  · have hn : needToUseMap none = false := by simp [needToUseMap]
    by_cases hrb : rb = true
    · subst hrb
      simp [GetHandlebarsInstance, converterInstance, hn]
    · replace hrb : rb = false := by simpa using hrb
      subst hrb
      simp [GetHandlebarsInstance, converterInstance, hn]

theorem c1_witness :
    ((GetHandlebarsInstance (some (.obj [("t", .str "x")])) st0).inst =
        ⟨st0.nextId, some (.obj [("t", .str "x")])⟩ ∧
      (GetHandlebarsInstance (some (.obj [("t", .str "x")])) st0).st.rebuildCache = true ∧
      (GetHandlebarsInstance (some (.obj [("t", .str "x")])) st0).st.shared =
        ⟨st0.nextId, some (.obj [("t", .str "x")])⟩ ∧
      (GetHandlebarsInstance (some (.obj [("t", .str "x")])) st0).st.nextId =
        st0.nextId + 1) ∧
    ((GetHandlebarsInstance none st0).inst = st0.shared ∧
      (GetHandlebarsInstance none st0).st = st0) :=
  ⟨(c1_engine_acquisition st0 (some (.obj [("t", .str "x")]))).1
      ⟨.obj [("t", .str "x")], rfl, rfl, by simp [jsEntries]⟩,
    (c1_engine_acquisition st0 none).2.2.1 (Or.inl rfl) rfl⟩

/-- Claim C10: a non-empty value that is not a plain object (for example
an array) does not count as an override map: with the contamination flag
clear the shared handle is reused, the flag stays clear and the state is
untouched, while the value is still forwarded to the engine
constructor. -/
theorem c10_nonplain_map (st : WState) (v : JVal) (h1 : st.rebuildCache = false)
    (h2 : isPlainObject v = false) (_h3 : truthyJ v = true) :
    (GetHandlebarsInstance (some v) st).inst = st.shared ∧
    (GetHandlebarsInstance (some v) st).st = st ∧
    (GetHandlebarsInstance (some v) st).evs = [Ev.instanceCall false (some v)] := by
  obtain ⟨rb, sh, ni, cc, co⟩ := st
  subst h1
  have hn : needToUseMap (some v) = false := by simp [needToUseMap, h2]
  simp [GetHandlebarsInstance, converterInstance, hn]

theorem c10_witness :
    (GetHandlebarsInstance (some (.arr [.num 1])) st0).inst = st0.shared ∧
    (GetHandlebarsInstance (some (.arr [.num 1])) st0).st = st0 ∧
    (GetHandlebarsInstance (some (.arr [.num 1])) st0).evs =
      [Ev.instanceCall false (some (.arr [.num 1]))] :=
  c10_nonplain_map st0 (.arr [.num 1]) rfl rfl rfl

/-- Claim C2: named-template lookup serves cache hits without any source
retrieval; on a miss a missing source rejects with NotFound (404); a
failed compilation rejects with BadRequest and stores nothing, so a
subsequent lookup of the name retrieves again; a successful compilation
is stored under the name before the lookup completes. -/
theorem c2_named_template_lookup (env : Env) (st : WState) (name : String) :
    (∀ t, cacheGet st.compileCache name = some t →
      getTemplate env st name = (.ok t, st, [])) ∧
    (cacheGet st.compileCache name = none →
      env.fs (pathJoin (tmplLocation st.constants) name) = none →
      getTemplate env st name =
        (.error (.descr 404 ⟨.NotFound, "Template not found"⟩), st,
          [Ev.readF (pathJoin (tmplLocation st.constants) name)])) ∧
    (∀ src e, cacheGet st.compileCache name = none →
      env.fs (pathJoin (tmplLocation st.constants) name) = some src →
      env.compile (GetHandlebarsInstance none st).inst (env.preprocess src) = .error e →
      (getTemplate env st name).1 =
        .error (bad400 ("Error during template compilation. " ++ e)) ∧
      cacheGet (getTemplate env st name).2.1.compileCache name = none ∧
      Ev.readF (pathJoin (tmplLocation (getTemplate env st name).2.1.constants) name) ∈
        (getTemplate env (getTemplate env st name).2.1 name).2.2) ∧
    (∀ src t, cacheGet st.compileCache name = none →
      env.fs (pathJoin (tmplLocation st.constants) name) = some src →
      env.compile (GetHandlebarsInstance none st).inst (env.preprocess src) = .ok t →
      (getTemplate env st name).1 = .ok t ∧
      cacheGet (getTemplate env st name).2.1.compileCache name = some t) := by
  refine ⟨?_, ?_, ?_, ?_⟩
  · intro t ht
    rw [getTemplate, ht]
  · intro h1 h2
    rw [getTemplate, h1]
    simp [h2]
  · intro src e h1 h2 h3
    have hres : getTemplate env st name =
        (.error (bad400 ("Error during template compilation. " ++ e)),
          (GetHandlebarsInstance none st).st,
          Ev.readF (pathJoin (tmplLocation st.constants) name) ::
            (GetHandlebarsInstance none st).evs ++ [Ev.compileCall]) := by
      rw [getTemplate, h1]
      simp [h2, h3]
    rw [hres]
    refine ⟨rfl, ?_, ?_⟩
    · rw [GetHandlebarsInstance_compileCache, h1]
    · rw [getTemplate]
      rw [GetHandlebarsInstance_compileCache, h1]
      cases hfs : env.fs (pathJoin
          (tmplLocation (GetHandlebarsInstance none st).st.constants) name) with
      | none => simp [hfs]
      | some src2 =>
        cases hc2 : env.compile
            (GetHandlebarsInstance none (GetHandlebarsInstance none st).st).inst
            (env.preprocess src2) with
        | error e2 => simp [hfs, hc2]
        | ok t2 => simp [hfs, hc2]
  · intro src t h1 h2 h3
    have hres : getTemplate env st name =
        (.ok t,
          { (GetHandlebarsInstance none st).st with
              compileCache := (name, t) :: (GetHandlebarsInstance none st).st.compileCache },
          Ev.readF (pathJoin (tmplLocation st.constants) name) ::
            (GetHandlebarsInstance none st).evs ++ [Ev.compileCall]) := by
      rw [getTemplate, h1]
      simp [h2, h3]
    rw [hres]
    exact ⟨rfl, cacheGet_cons_self name t _⟩

theorem c2_witness :
    (getTemplate env0 stCached "cached.hbs" = (.ok tmplOne, stCached, []) ∧
      getTemplate envFs st0 "missing.hbs" =
        (.error (.descr 404 ⟨.NotFound, "Template not found"⟩), st0,
          [Ev.readF (pathJoin (tmplLocation st0.constants) "missing.hbs")])) ∧
    (getTemplate envFs st0 "a.hbs").1 = .ok tmplOne ∧
    cacheGet (getTemplate envFs st0 "a.hbs").2.1.compileCache "a.hbs" = some tmplOne :=
  ⟨⟨(c2_named_template_lookup env0 stCached "cached.hbs").1 tmplOne rfl,
    (c2_named_template_lookup envFs st0 "missing.hbs").2.1 rfl rfl⟩,
    (c2_named_template_lookup envFs st0 "a.hbs").2.2.2 "SRC" tmplOne rfl rfl rfl⟩

/-- Claim C3: templates-updated and constants-updated tasks both clear the
compiled-template cache, set the contamination flag and fulfill with no
payload; any lookup on the cleared cache retrieves again and the next
acquisition constructs a fresh engine instance. -/
theorem c3_cache_invalidation (env : Env) (st : WState) (m : TaskMsg) :
    (m.type = "templatesUpdated" →
      runWorker env st m = ⟨[Ev.settle (.fulfill none)], none, expireCache st⟩ ∧
      outcome (runWorker env st m) = some (.fulfill none)) ∧
    (∀ c, m.type = "constantsUpdated" → jsonParse (coerceStr m.data) = some c →
      runWorker env st m =
        ⟨[Ev.settle (.fulfill none)], none, expireCache { st with constants := c }⟩ ∧
      outcome (runWorker env st m) = some (.fulfill none)) ∧
    (∀ sta : WState, (expireCache sta).compileCache = [] ∧
      (expireCache sta).rebuildCache = true) ∧
    (∀ (sta : WState) (name : String), sta.compileCache = [] →
      Ev.readF (pathJoin (tmplLocation sta.constants) name) ∈
        (getTemplate env sta name).2.2) ∧
    (∀ sta : WState, sta.rebuildCache = true →
      (GetHandlebarsInstance none sta).evs = [Ev.instanceCall true none]) := by
  refine ⟨?_, ?_, fun sta => ⟨rfl, rfl⟩, ?_, ?_⟩
  · intro h
    rw [runWorker_templatesUpdated env st h]
    exact ⟨by trivial, by trivial⟩
  · intro c h hp
    rw [runWorker_constantsUpdated env st h]
    simp only [hp]
    exact ⟨by trivial, by trivial⟩
  · intro sta name hcc
    rw [getTemplate]
    have : cacheGet sta.compileCache name = none := by rw [hcc]; rfl
    rw [this]
    cases hfs : env.fs (pathJoin (tmplLocation sta.constants) name) with
    | none => simp [hfs]
    | some src =>
      cases hc : env.compile (GetHandlebarsInstance none sta).inst
          (env.preprocess src) with
      | error e => simp [hfs, hc]
      | ok t => simp [hfs, hc]
  · intro sta hrb
    rw [GetHandlebarsInstance]
    simp [needToUseMap, hrb]

theorem c3_witness :
    (runWorker env0 stCached (mkTask "templatesUpdated") =
      ⟨[Ev.settle (.fulfill none)], none, expireCache stCached⟩ ∧
      outcome (runWorker env0 stCached (mkTask "templatesUpdated")) =
        some (.fulfill none)) ∧
    (runWorker env0 stCached ⟨"constantsUpdated", none, none, none, none, none, "",
        some "\x7b\x7d"⟩ =
      ⟨[Ev.settle (.fulfill none)], none,
        expireCache { stCached with constants := .obj [] }⟩) ∧
    (expireCache stCached).compileCache = [] ∧
    (expireCache stCached).rebuildCache = true :=
  ⟨(c3_cache_invalidation env0 stCached (mkTask "templatesUpdated")).1 rfl,
    ((c3_cache_invalidation env0 stCached ⟨"constantsUpdated", none, none, none, none,
        none, "", some "\x7b\x7d"⟩).2.1 (.obj []) rfl rfl).1,
    (c3_cache_invalidation env0 stCached (mkTask "templatesUpdated")).2.2.1
      stCached⟩

/-- Claim C9: when the configuration payload of a constants-updated task
does not parse, the throw aborts the handler before `expireCache`, so the
cache, the contamination flag and the constants are unchanged and a
previously cached compiled template is still served from the cache. -/
theorem c9_constants_parse_failure (env : Env) (st : WState) (m : TaskMsg)
    (h1 : m.type = "constantsUpdated") (h2 : jsonParse (coerceStr m.data) = none) :
    (runWorker env st m).state = st ∧
    (runWorker env st m).events = [] ∧
    ∀ name t, cacheGet st.compileCache name = some t →
      getTemplate env (runWorker env st m).state name =
        (.ok t, (runWorker env st m).state, []) := by
  rw [runWorker_constantsUpdated env st h1]
  simp only [h2]
  refine ⟨by trivial, by trivial, ?_⟩
  intro name t ht
  rw [getTemplate, ht]

theorem c9_witness :
    (runWorker env0 stCached taskC8).state = stCached ∧
    getTemplate env0 (runWorker env0 stCached taskC8).state "cached.hbs" =
      (.ok tmplOne, (runWorker env0 stCached taskC8).state, []) :=
  ⟨(c9_constants_parse_failure env0 stCached taskC8 rfl rfl).1,
    (c9_constants_parse_failure env0 stCached taskC8 rfl rfl).2.2 "cached.hbs" tmplOne rfl⟩

theorem settlesOf_settle (s : Settlement) (l : List Ev) :
    settlesOf (Ev.settle s :: l) = s :: settlesOf l := by simp [settlesOf]

theorem inlineRoute_settles (env : Env) (st : WState) (m : TaskMsg) :
    settlesOf (inlineRoute env st m).events ≠ [] ∧ (inlineRoute env st m).thrown = none := by
  unfold inlineRoute
  dsimp only
  repeat' split
  all_goals refine ⟨?_, rfl⟩
  all_goals simp [settlesOf_append, settlesOf, List.filterMap_cons]

theorem namedRoute_settles (env : Env) (st : WState) (m : TaskMsg) :
    settlesOf (namedRoute env st m).events ≠ [] ∧ (namedRoute env st m).thrown = none := by
  unfold namedRoute
  dsimp only
  repeat' split
  all_goals refine ⟨?_, rfl⟩
  all_goals simp [settlesOf_append, settlesOf, List.filterMap_cons]

/-- Claim C4: every recognized task kind produces a terminal settlement
(the first settlement attempt, by the promise semantics of `outcome`),
while a task of an unrecognized kind emits no settlement attempt and no
throw, so its promise never settles. -/
theorem c4_router_settlement (env : Env) (st : WState) (m : TaskMsg) :
    (recognizedType m.type = true → (outcome (runWorker env st m)).isSome = true) ∧
    (recognizedType m.type = false →
      (runWorker env st m).events = [] ∧ (runWorker env st m).thrown = none) := by
  constructor
  · intro h
    rw [recognizedType] at h
    simp only [Bool.or_eq_true, decide_eq_true_eq] at h
    have hsome : ∀ r : RunOut, settlesOf r.events ≠ [] → (outcome r).isSome = true := by
      intro r hr
      rw [outcome]
      cases hs : settlesOf r.events with
      | nil => exact absurd hs hr
      | cons a l => rfl
    rcases h with ((h | h) | h) | h
    · rw [runWorker_inline env st h]
      exact hsome _ (inlineRoute_settles env st m).1
    · rw [runWorker_named env st h]
      exact hsome _ (namedRoute_settles env st m).1
    · rw [runWorker_templatesUpdated env st h]
      rfl
    · rw [runWorker_constantsUpdated env st h]
      cases hp : jsonParse (coerceStr m.data) <;> simp [hp, outcome, settlesOf]
  · intro h
    rw [runWorker_unrecognized env st h]
    exact ⟨rfl, rfl⟩

theorem c4_witness :
    (outcome (runWorker env0 st0 taskC5)).isSome = true ∧
    (runWorker env0 st0 (mkTask "bogus")).events = [] ∧
    (runWorker env0 st0 (mkTask "bogus")).thrown = none :=
  ⟨(c4_router_settlement env0 st0 taskC5).1 rfl,
    (c4_router_settlement env0 st0 (mkTask "bogus")).2 rfl⟩

/-! ### The inline route building blocks -/

theorem rdBlock_ok (m : TaskMsg) (h : rdFieldOk m = true) :
    ∃ v, rdBlock m = ((rdBlock m).1, .ok v) ∧ settlesOf (rdBlock m).1 = [] := by
  unfold rdFieldOk at h
  unfold rdBlock
  cases hf : m.replacementDictionaryBase64 with
  | none => exact ⟨.obj [], rfl, rfl⟩
  | some s =>
    rw [hf] at h
    by_cases he : s.isEmpty
    · simp only [he, if_true]
      exact ⟨.obj [], rfl, rfl⟩
    · simp only [he, Bool.false_or] at h
      simp only [Bool.and_eq_true] at h
      cases hp : jsonParse (b64Decode s) with
      | none => rw [hp] at h; simp at h
      | some v =>
        simp only [he, if_false, h.1, if_true, hp]
        exact ⟨v, rfl, by simp [settlesOf]⟩

theorem tmBlock_ok (m : TaskMsg) (h : tmFieldOk m = true) :
    ∃ v, tmBlock m = ((tmBlock m).1, .ok v) ∧ settlesOf (tmBlock m).1 = [] := by
  unfold tmFieldOk at h
  unfold tmBlock
  cases hf : m.templatesMapBase64 with
  | none => exact ⟨none, rfl, rfl⟩
  | some s =>
    rw [hf] at h
    by_cases he : s.isEmpty
    · simp only [he, if_true]
      exact ⟨none, rfl, rfl⟩
    · simp only [he, Bool.false_or] at h
      simp only [Bool.and_eq_true] at h
      cases hp : jsonParse (b64Decode s) with
      | none => rw [hp] at h; simp at h
      | some v =>
        simp only [he, if_false, h.1, if_true, hp]
        exact ⟨some v, rfl, by simp [settlesOf]⟩

theorem msgBlock_ok (m : TaskMsg) (sb : String) (v : JVal)
    (hmsg : m.messageBase64 = some sb) (hp : jsonParse (b64Decode sb) = some v) :
    msgBlock m = ([Ev.decodeF .message], v) := by
  simp [msgBlock, bufferFrom, hmsg, hp]

theorem templateTextBlock_settles (m : TaskMsg) :
    settlesOf (templateTextBlock m).1 = [] := by
  unfold templateTextBlock
  cases m.templateBase64 with
  | none => rfl
  | some s =>
    by_cases he : s.isEmpty
    · simp [he, settlesOf]
    · simp [he, settlesOf]

/-- Claim C5: an inline task whose message decodes and parses and whose
decoded template text is empty or absent settles successfully with status
200 and the parsed message wrapped unmodified as a fhirResource envelope
(the deep copy returns the parsed value unchanged), leaving the worker
state untouched. -/
theorem c5_empty_template_passthrough (env : Env) (st : WState) (m : TaskMsg) (sb : String) (v : JVal)
    (hty : m.type = "/api/convert/hl7")
    (hmsg : m.messageBase64 = some sb)
    (hb64 : b64Ok sb = true)
    (hparse : jsonParse (b64Decode sb) = some v)
    (htmpl : b64Ok (coerceStr m.templateBase64) = true)
    (hrd : rdFieldOk m = true)
    (htm : tmFieldOk m = true)
    (hempty : (templateTextBlock m).2 = "") :
    outcome (runWorker env st m) =
      some (.fulfill (some (200, .obj [("fhirResource", v)]))) ∧
    (runWorker env st m).state = st := by
  rw [runWorker_inline env st hty]
  obtain ⟨rdv, hrdeq, hrds⟩ := rdBlock_ok m hrd
  obtain ⟨tmv, htmeq, htms⟩ := tmBlock_ok m htm
  have htt : templateTextBlock m = ((templateTextBlock m).1, "") := by
    rw [← hempty]
  have hco : coerceStr m.messageBase64 = sb := by rw [hmsg]; rfl
  unfold inlineRoute
  rw [hrdeq, htmeq, msgBlock_ok m sb v hmsg hparse, htt]
  dsimp only
  rw [hco, hb64, htmpl]
  simp only [if_true, if_pos rfl, jsParseE_stringify, jsonParse_stringify]
  have hnil : settlesOf ([] : List Ev) = [] := rfl
  have hdec : ∀ l : List Ev, ∀ fl, settlesOf (Ev.decodeF fl :: l) = settlesOf l := by
    intro l fl; simp [settlesOf]
  have hset : ∀ (s : Settlement) (l : List Ev),
      settlesOf (Ev.settle s :: l) = s :: settlesOf l := by
    intro s l; simp [settlesOf]
  constructor
  · rw [outcome]
    dsimp only
    simp only [settlesOf_append, hrds, htms, templateTextBlock_settles, hnil, hdec, hset,
      List.append_nil, List.nil_append]
  · trivial

theorem c5_witness :
    outcome (runWorker env0 st0 taskC5) =
      some (.fulfill (some (200, .obj [("fhirResource", .obj [("a", .num 1)])]))) ∧
    (runWorker env0 st0 taskC5).state = st0 :=
  c5_empty_template_passthrough env0 st0 taskC5 "eyJhIjoxfQ==" (.obj [("a", .num 1)])
    rfl rfl rfl rfl rfl rfl rfl rfl

/-- Claim C6 as stated is false: when the replacementDictionary passes
the alphabet check but its decoded bytes fail to parse, the thrown parse
error preempts the templatesMap check, so a templatesMap field that fails
the alphabet check never triggers a rejection naming it. -/
theorem c6_counterexample : ¬ claimC6Stated := by
  intro h
  have hmem := h env0 st0 taskC6 .templatesMap "!!!" rfl rfl rfl
  have hev : (runWorker env0 st0 taskC6).events =
      [Ev.decodeF .replacementDictionary,
        Ev.settle (.reject (bad400 "SyntaxError: Unexpected token in JSON"))] := rfl
  rw [hev] at hmem
  simp only [List.mem_cons, List.not_mem_nil, or_false] at hmem
  rcases hmem with h1 | h1
  · injection h1
  · injection h1 with h2
    injection h2 with h3
    injection h3 with h4 h5
    injection h5 with h6 h7
    exact absurd h7 (by decide)

theorem rdBlock_badB64 (m : TaskMsg) (s : String)
    (hf : m.replacementDictionaryBase64 = some s) (he : s.isEmpty = false)
    (hb : b64Ok s = false) :
    (rdBlock m).1 =
      [Ev.settle (.reject (bad400 "replacementDictionary is not a base 64 encoded string.")),
        Ev.decodeF .replacementDictionary] := by
  simp [rdBlock, hf, he, hb]

theorem tmBlock_badB64 (m : TaskMsg) (s : String)
    (hf : m.templatesMapBase64 = some s) (he : s.isEmpty = false)
    (hb : b64Ok s = false) :
    (tmBlock m).1 =
      [Ev.settle (.reject (bad400 "templatesMap is not a base 64 encoded string.")),
        Ev.decodeF .templatesMap] := by
  simp [tmBlock, hf, he, hb]

theorem rdBlock_no_tm_decode (m : TaskMsg) : Ev.decodeF .templatesMap ∉ (rdBlock m).1 := by
  unfold rdBlock
  rcases m.replacementDictionaryBase64 with _ | s
  · simp
  · dsimp only
    split
    · simp
    · split <;> simp

/-- Claim C7 as stated is false: the post-processing collaborator runs on
the rendered text before parsing, so rendered text that does not parse
can still assemble successfully once post-processing repairs it. -/
theorem c7_counterexample : ¬ claimC7Stated := by
  intro h
  obtain ⟨e2, he⟩ := h envRepair .null tmplX none "x" rfl
    ⟨"SyntaxError: Unexpected token in JSON", rfl⟩
  have hg : generateResult envRepair .null tmplX none =
      .ok (.obj [("fhirResource", .num 1)]) := rfl
  rw [hg] at he
  exact Except.noConfusion he

/-- Claim C7 as amended: the result assembler renders the template to
text, passes the rendered text through the post-processing collaborator,
parses the result as structured data, passes it through the merge
collaborator together with the replacement mapping, and wraps the
outcome as a fhirResource envelope, every failure propagating out (to be
surfaced as BadRequest by the callers). -/
theorem c7_amended (env : Env) (msgContext : JVal) (template : CompiledT)
    (replacementMapping : Option JVal) :
    generateResult env msgContext template replacementMapping =
      assemblePipelineSpec env msgContext template replacementMapping := by
  rw [generateResult, assemblePipelineSpec]
  cases ht : template msgContext with
  | error e => simp [ht, bind, Except.bind]
  | ok rendered =>
    cases hp : jsParseE (env.jsonProcess rendered) with
    | error e => simp [ht, hp, bind, Except.bind]
    | ok parsed =>
      cases hm : env.merge parsed replacementMapping with
      | error e => simp [ht, hp, hm, bind, Except.bind, Functor.map, Except.map]
      | ok merged =>
        simp [ht, hp, hm, bind, Except.bind, Functor.map, Except.map, pure, Except.pure]

theorem rdBlock_settles_shape (m : TaskMsg) :
    ∀ s, Ev.settle s ∈ (rdBlock m).1 →
      s = .reject (bad400 "replacementDictionary is not a base 64 encoded string.") := by
  unfold rdBlock
  rcases m.replacementDictionaryBase64 with _ | v
  · simp
  · dsimp only
    split
    · simp
    · split <;> simp

theorem tmBlock_settles_shape (m : TaskMsg) :
    ∀ s, Ev.settle s ∈ (tmBlock m).1 →
      s = .reject (bad400 "templatesMap is not a base 64 encoded string.") := by
  unfold tmBlock
  rcases m.templatesMapBase64 with _ | v
  · simp
  · dsimp only
    split
    · simp
    · split <;> simp

theorem msgBlock_settles_shape (m : TaskMsg) :
    ∀ s, Ev.settle s ∈ (msgBlock m).1 →
      ∃ t, s = .reject (bad400 ("Unable to decode and parse HL7 v2 message. " ++ t)) := by
  unfold msgBlock
  rcases hb : bufferFrom m.messageBase64 with e | d
  · simp only [List.mem_cons, List.not_mem_nil, or_false]
    rintro s (h | h)
    · exact Ev.noConfusion h
    · exact ⟨e, by injection h⟩
  · dsimp only
    rcases hp : jsonParse d with _ | v
    · simp only [List.mem_cons, List.not_mem_nil, or_false]
      rintro s (h | h)
      · exact Ev.noConfusion h
      · exact ⟨"SyntaxError: Unexpected token in JSON", by injection h⟩
    · simp

theorem templateTextBlock_no_settles (m : TaskMsg) :
    ∀ s, Ev.settle s ∉ (templateTextBlock m).1 := by
  unfold templateTextBlock
  rcases m.templateBase64 with _ | v
  · simp
  · dsimp only
    split <;> simp

theorem GetHandlebarsInstance_no_settles (M : Option JVal) (st : WState) :
    ∀ s, Ev.settle s ∉ (GetHandlebarsInstance M st).evs := by
  cases hn : needToUseMap M <;> cases hrb : st.rebuildCache <;>
    simp [GetHandlebarsInstance, converterInstance, hn, hrb]

theorem getTemplate_no_settles (env : Env) (st : WState) (name : String) :
    ∀ s, Ev.settle s ∉ (getTemplate env st name).2.2 := by
  unfold getTemplate
  rcases hc : cacheGet st.compileCache name with _ | t
  · dsimp only
    rcases hf : env.fs (pathJoin (tmplLocation st.constants) name) with _ | src
    · simp
    · dsimp only
      rcases hcp : env.compile (GetHandlebarsInstance none st).inst (env.preprocess src)
          with e | t2 <;>
        simp [GetHandlebarsInstance_no_settles]
  · simp

theorem getTemplate_error_structured (env : Env) (st : WState) (name : String) :
    ∀ rv, (getTemplate env st name).1 = .error rv →
      ∃ status err, rv = .descr status err ∧ (status = 400 ∨ status = 404) := by
  unfold getTemplate
  rcases hc : cacheGet st.compileCache name with _ | t
  · dsimp only
    rcases hf : env.fs (pathJoin (tmplLocation st.constants) name) with _ | src
    · intro rv h
      injection h with h2
      exact ⟨404, _, h2.symm, Or.inr rfl⟩
    · dsimp only
      rcases hcp : env.compile (GetHandlebarsInstance none st).inst (env.preprocess src)
          with e | t2
      · intro rv h
        injection h with h2
        exact ⟨400, _, h2.symm, Or.inl rfl⟩
      · intro rv h
        exact Except.noConfusion h
  · intro rv h
    exact Except.noConfusion h

theorem sr_nil : structuredRejects [] := by
  intro rv h
  exact absurd h (List.not_mem_nil _)

theorem sr_append {a b : List Ev} (ha : structuredRejects a) (hb : structuredRejects b) :
    structuredRejects (a ++ b) := by
  intro rv h
  rcases List.mem_append.mp h with h | h
  · exact ha rv h
  · exact hb rv h

theorem sr_cons {e : Ev} {l : List Ev}
    (he : ∀ rv, e = Ev.settle (.reject rv) →
      ∃ status err, rv = .descr status err ∧ (status = 400 ∨ status = 404))
    (hl : structuredRejects l) : structuredRejects (e :: l) := by
  intro rv h
  rcases List.mem_cons.mp h with h | h
  · exact he rv h.symm
  · exact hl rv h

theorem sr_compile_cons {l : List Ev} (hl : structuredRejects l) :
    structuredRejects (Ev.compileCall :: l) :=
  sr_cons (fun rv h => Ev.noConfusion h) hl

theorem sr_fulfill_cons {l : List Ev} (v : Option (Nat × JVal)) (hl : structuredRejects l) :
    structuredRejects (Ev.settle (.fulfill v) :: l) := by
  refine sr_cons (fun rv h => ?_) hl
  injection h with h2
  exact Settlement.noConfusion h2

theorem sr_bad400_cons {l : List Ev} (t : String) (hl : structuredRejects l) :
    structuredRejects (Ev.settle (.reject (bad400 t)) :: l) := by
  refine sr_cons (fun rv h => ?_) hl
  injection h with h2
  injection h2 with h3
  exact ⟨400, _, h3.symm, Or.inl rfl⟩

theorem sr_of_shape {l : List Ev} {text : String}
    (h : ∀ s, Ev.settle s ∈ l → s = .reject (bad400 text)) : structuredRejects l := by
  intro rv hm
  have h1 := h _ hm
  injection h1 with h2
  exact ⟨400, _, h2, Or.inl rfl⟩

theorem sr_of_family {l : List Ev} {pre : String}
    (h : ∀ s, Ev.settle s ∈ l → ∃ t, s = .reject (bad400 (pre ++ t))) :
    structuredRejects l := by
  intro rv hm
  obtain ⟨t, ht⟩ := h _ hm
  injection ht with h2
  exact ⟨400, _, h2, Or.inl rfl⟩

theorem sr_of_no_settles {l : List Ev} (h : ∀ s, Ev.settle s ∉ l) :
    structuredRejects l := by
  intro rv hm
  exact absurd hm (h _)

theorem sr_if_check (c : Bool) (t : String) :
    structuredRejects (if c = true then [] else [Ev.settle (.reject (bad400 t))]) := by
  split
  · exact sr_nil
  · exact sr_bad400_cons t sr_nil

theorem inlineRoute_structured (env : Env) (st : WState) (m : TaskMsg) :
    structuredRejects (inlineRoute env st m).events := by
  have H5 : structuredRejects (msgBlock m).1 := sr_of_family (msgBlock_settles_shape m)
  have H6 : structuredRejects (templateTextBlock m).1 :=
    sr_of_no_settles (templateTextBlock_no_settles m)
  have HG : ∀ M, structuredRejects (GetHandlebarsInstance M st).evs :=
    fun M => sr_of_no_settles (GetHandlebarsInstance_no_settles M st)
  have HE1 : structuredRejects (if b64Ok (coerceStr m.messageBase64) = true then []
      else [Ev.settle (.reject (bad400 "Message is not a base 64 encoded string."))]) :=
    sr_if_check _ _
  have HE2 : structuredRejects (if b64Ok (coerceStr m.templateBase64) = true then []
      else [Ev.settle (.reject (bad400 "Template is not a base 64 encoded string."))]) :=
    sr_if_check _ _
  unfold inlineRoute
  dsimp only
  rcases hrd : rdBlock m with ⟨e3, r3⟩
  have H3 : structuredRejects e3 := by
    have h1 := rdBlock_settles_shape m
    rw [hrd] at h1
    exact sr_of_shape h1
  rcases htm : tmBlock m with ⟨e4, r4⟩
  have H4 : structuredRejects e4 := by
    have h1 := tmBlock_settles_shape m
    rw [htm] at h1
    exact sr_of_shape h1
  cases r3 with
  | error err =>
    dsimp only
    exact sr_append (sr_append (sr_append HE1 HE2) H3) (sr_bad400_cons _ sr_nil)
  | ok rdv =>
    cases r4 with
    | error err =>
      dsimp only
      exact sr_append (sr_append (sr_append (sr_append HE1 HE2) H3) H4)
        (sr_bad400_cons _ sr_nil)
    | ok tmv =>
      dsimp only
      repeat' split
      all_goals
        repeat' first
          | exact sr_nil
          | exact H3
          | exact H4
          | exact H5
          | exact H6
          | exact HE1
          | exact HE2
          | exact HG _
          | apply sr_append
          | apply sr_compile_cons
          | apply sr_fulfill_cons
          | apply sr_bad400_cons

theorem namedRoute_structured (env : Env) (st : WState) (m : TaskMsg) :
    structuredRejects (namedRoute env st m).events := by
  have HE1 : structuredRejects (if truthyOpt m.messageContent = true then []
      else [Ev.settle (.reject (bad400 "No message provided."))]) := sr_if_check _ _
  unfold namedRoute
  dsimp only
  rcases hgt : getTemplate env st m.templateName with ⟨res, st2, e3⟩
  have H3 : structuredRejects e3 := by
    have h1 := getTemplate_no_settles env st m.templateName
    rw [hgt] at h1
    exact sr_of_no_settles h1
  have HERR : ∀ rv, res = .error rv →
      ∃ status err, rv = .descr status err ∧ (status = 400 ∨ status = 404) := by
    intro rv h
    have h1 := getTemplate_error_structured env st m.templateName rv
    rw [hgt] at h1
    exact h1 h
  cases hp : jsonParse (coerceStr m.messageContent) with
  | none =>
    cases res with
    | error rv =>
      dsimp only
      refine sr_append (sr_append (sr_append HE1 (sr_bad400_cons _ sr_nil)) H3)
        (sr_cons ?_ sr_nil)
      intro rv2 h
      injection h with h2
      injection h2 with h3
      exact h3 ▸ HERR rv rfl
    | ok t =>
      dsimp only
      repeat' split
      all_goals
        repeat' first
          | exact sr_nil
          | exact H3
          | exact HE1
          | apply sr_append
          | apply sr_fulfill_cons
          | apply sr_bad400_cons
  | some v =>
    cases res with
    | error rv =>
      dsimp only
      refine sr_append (sr_append (sr_append HE1 sr_nil) H3) (sr_cons ?_ sr_nil)
      intro rv2 h
      injection h with h2
      injection h2 with h3
      exact h3 ▸ HERR rv rfl
    | ok t =>
      dsimp only
      repeat' split
      all_goals
        repeat' first
          | exact sr_nil
          | exact H3
          | exact HE1
          | apply sr_append
          | apply sr_fulfill_cons
          | apply sr_bad400_cons


/-- Claim C8 as stated is false: a constants-updated task with an
unparsable payload is rejected with the raw thrown parse error, not a
structured descriptor. -/
theorem c8_counterexample : ¬ claimC8Stated := by
  intro h
  obtain ⟨status, err, heq, _⟩ :=
    h env0 st0 taskC8 (.raw "SyntaxError: Unexpected token in JSON") rfl
  exact RejectVal.noConfusion heq

/-- Claim C8 as amended: every rejection attempt the router itself emits
is a structured descriptor with status 400 or 404, and the only error
thrown past the routing switch is the parse error of a constants-updated
task with an unparsable payload, which rejects the task with the raw
error. -/
theorem c8_amended (env : Env) (st : WState) (m : TaskMsg) :
    structuredRejects (runWorker env st m).events ∧
    (∀ e, (runWorker env st m).thrown = some e →
      m.type = "constantsUpdated" ∧ jsonParse (coerceStr m.data) = none ∧
      outcome (runWorker env st m) = some (.reject (.raw e))) := by
  by_cases h1 : m.type = "/api/convert/hl7"
  · rw [runWorker_inline env st h1]
    refine ⟨inlineRoute_structured env st m, fun e he => ?_⟩
    rw [(inlineRoute_settles env st m).2] at he
    exact Option.noConfusion he
  · by_cases h2 : m.type = "/api/convert/hl7/:template"
    · rw [runWorker_named env st h2]
      refine ⟨namedRoute_structured env st m, fun e he => ?_⟩
      rw [(namedRoute_settles env st m).2] at he
      exact Option.noConfusion he
    · by_cases h3 : m.type = "templatesUpdated"
      · rw [runWorker_templatesUpdated env st h3]
        exact ⟨sr_fulfill_cons _ sr_nil, fun e he => Option.noConfusion he⟩
      · by_cases h4 : m.type = "constantsUpdated"
        · rw [runWorker_constantsUpdated env st h4]
          cases hp : jsonParse (coerceStr m.data) with
          | none =>
            refine ⟨sr_nil, fun e he => ⟨h4, rfl, ?_⟩⟩
            injection he with h5
            rw [← h5]
            rfl
          | some c => exact ⟨sr_fulfill_cons _ sr_nil, fun e he => Option.noConfusion he⟩
        · have hr : recognizedType m.type = false := by
            simp [recognizedType, h1, h2, h3, h4]
          rw [runWorker_unrecognized env st hr]
          exact ⟨sr_nil, fun e he => Option.noConfusion he⟩

theorem c8_witness :
    ((runWorker env0 st0 taskC8).thrown = some "SyntaxError: Unexpected token in JSON" →
      taskC8.type = "constantsUpdated" ∧ jsonParse (coerceStr taskC8.data) = none ∧
      outcome (runWorker env0 st0 taskC8) =
        some (.reject (.raw "SyntaxError: Unexpected token in JSON"))) ∧
    (taskC8.type = "constantsUpdated" ∧ jsonParse (coerceStr taskC8.data) = none ∧
      outcome (runWorker env0 st0 taskC8) =
        some (.reject (.raw "SyntaxError: Unexpected token in JSON"))) ∧
    (∃ status err,
      bad400 "Message is not a base 64 encoded string." = .descr status err ∧
      (status = 400 ∨ status = 404)) :=
  ⟨(c8_amended env0 st0 taskC8).2 "SyntaxError: Unexpected token in JSON",
    (c8_amended env0 st0 taskC8).2 "SyntaxError: Unexpected token in JSON" rfl,
    (c8_amended env0 st0 taskC6w).1
      (bad400 "Message is not a base 64 encoded string.")
      (by
        have hev : (runWorker env0 st0 taskC6w).events =
            [Ev.settle (.reject (bad400 "Message is not a base 64 encoded string.")),
              Ev.decodeF .message,
              Ev.settle (.reject (bad400
                ("Unable to decode and parse HL7 v2 message. " ++
                  "SyntaxError: Unexpected token in JSON"))),
              Ev.settle (.fulfill (some (200, .obj [("fhirResource", .obj [])])))] := rfl
        rw [hev]
        simp)⟩



/-- Claim C6 as amended: a present field failing the alphabet check
triggers a 400 BadRequest rejection naming the field, emitted before the
field is decoded, provided control reaches that field's check (the
message and template checks always run; the replacementDictionary check
runs before its decode; the templatesMap check requires the
replacementDictionary block not to have thrown), and the first rejection
is the task's outcome. -/
theorem c6_amended (env : Env) (st : WState) (m : TaskMsg)
    (hty : m.type = "/api/convert/hl7") :
    (∀ s, m.messageBase64 = some s → b64Ok s = false →
      outcome (runWorker env st m) =
        some (.reject (bad400 "Message is not a base 64 encoded string.")) ∧
      (∃ l1 l2, (runWorker env st m).events =
        l1 ++ Ev.settle (.reject (bad400 "Message is not a base 64 encoded string.")) :: l2 ∧
        Ev.decodeF .message ∉ l1)) ∧
    (∀ s, b64Ok (coerceStr m.messageBase64) = true → m.templateBase64 = some s →
      b64Ok s = false →
      outcome (runWorker env st m) =
        some (.reject (bad400 "Template is not a base 64 encoded string.")) ∧
      (∃ l1 l2, (runWorker env st m).events =
        l1 ++ Ev.settle (.reject (bad400 "Template is not a base 64 encoded string.")) :: l2 ∧
        Ev.decodeF .template ∉ l1)) ∧
    (∀ s, b64Ok (coerceStr m.messageBase64) = true →
      b64Ok (coerceStr m.templateBase64) = true →
      m.replacementDictionaryBase64 = some s → s.isEmpty = false → b64Ok s = false →
      outcome (runWorker env st m) =
        some (.reject (bad400 "replacementDictionary is not a base 64 encoded string.")) ∧
      (∃ l1 l2, (runWorker env st m).events =
        l1 ++ Ev.settle (.reject (bad400 "replacementDictionary is not a base 64 encoded string.")) :: l2 ∧
        Ev.decodeF .replacementDictionary ∉ l1)) ∧
    (∀ s, b64Ok (coerceStr m.messageBase64) = true →
      b64Ok (coerceStr m.templateBase64) = true → rdFieldOk m = true →
      m.templatesMapBase64 = some s → s.isEmpty = false → b64Ok s = false →
      outcome (runWorker env st m) =
        some (.reject (bad400 "templatesMap is not a base 64 encoded string.")) ∧
      (∃ l1 l2, (runWorker env st m).events =
        l1 ++ Ev.settle (.reject (bad400 "templatesMap is not a base 64 encoded string.")) :: l2 ∧
        Ev.decodeF .templatesMap ∉ l1)) := by
  rw [runWorker_inline env st hty]
  refine ⟨?_, ?_, ?_, ?_⟩
  · intro s hs hb
    unfold inlineRoute
    dsimp only
    have hco : coerceStr m.messageBase64 = s := by rw [hs]; rfl
    rw [hco, hb]
    simp only [Bool.false_eq_true, if_false]
    repeat' split
    all_goals
      refine ⟨by simp [outcome, settlesOf_settle, List.singleton_append], ?_⟩
    all_goals
      simp only [List.append_assoc, List.cons_append, List.nil_append, List.singleton_append]
    all_goals
      exact ⟨[], _, rfl, by simp⟩
  · intro s hmOk hst hb
    unfold inlineRoute
    dsimp only
    have hco : coerceStr m.templateBase64 = s := by rw [hst]; rfl
    rw [hmOk, hco, hb]
    simp only [Bool.false_eq_true, if_false, if_true]
    repeat' split
    all_goals
      refine ⟨by simp [outcome, settlesOf_settle, List.singleton_append], ?_⟩
    all_goals
      simp only [List.append_assoc, List.cons_append, List.nil_append, List.singleton_append]
    all_goals
      exact ⟨[], _, rfl, by simp⟩
  · intro s hmOk htOk hf he hb
    unfold inlineRoute
    dsimp only
    rw [hmOk, htOk]
    simp only [if_true]
    have he3 := rdBlock_badB64 m s hf he hb
    rcases hrd : rdBlock m with ⟨e3, err | rdv⟩
    · rw [hrd] at he3
      have he3' : e3 = _ := he3
      subst he3'
      refine ⟨by simp [outcome, settlesOf_settle, List.singleton_append, List.cons_append], ?_⟩
      simp only [List.append_assoc, List.cons_append, List.nil_append, List.singleton_append]
      exact ⟨[], _, rfl, by simp⟩
    · rw [hrd] at he3
      have he3' : e3 = _ := he3
      subst he3'
      dsimp only
      repeat' split
      all_goals
        refine ⟨by simp [outcome, settlesOf_settle, List.singleton_append,
            List.cons_append], ?_⟩
      all_goals
        simp only [List.append_assoc, List.cons_append, List.nil_append, List.singleton_append]
      all_goals
        exact ⟨[], _, rfl, by simp⟩
  · intro s hmOk htOk hrdok hf he hb
    unfold inlineRoute
    dsimp only
    rw [hmOk, htOk]
    simp only [if_true]
    obtain ⟨rdv, hrdeq, hrds⟩ := rdBlock_ok m hrdok
    rw [hrdeq]
    dsimp only
    have he4 := tmBlock_badB64 m s hf he hb
    rcases htm : tmBlock m with ⟨e4, err | tmv⟩
    · rw [htm] at he4
      have he4' : e4 = _ := he4
      subst he4'
      dsimp only
      refine ⟨by simp [outcome, settlesOf_append, hrds, settlesOf_settle,
          List.singleton_append, List.cons_append], ?_⟩
      simp only [List.append_assoc, List.cons_append, List.nil_append, List.singleton_append]
      exact ⟨(rdBlock m).1, _, rfl, rdBlock_no_tm_decode m⟩
    · rw [htm] at he4
      have he4' : e4 = _ := he4
      subst he4'
      dsimp only
      repeat' split
      all_goals
        refine ⟨by simp [outcome, settlesOf_append, hrds, settlesOf_settle,
            List.singleton_append, List.cons_append], ?_⟩
      all_goals
        simp only [List.append_assoc, List.cons_append, List.nil_append, List.singleton_append]
      all_goals
        exact ⟨(rdBlock m).1, _, rfl, rdBlock_no_tm_decode m⟩

theorem c6_witness :
    outcome (runWorker env0 st0 taskC6w) =
      some (.reject (bad400 "Message is not a base 64 encoded string.")) ∧
    (∃ l1 l2, (runWorker env0 st0 taskC6w).events =
      l1 ++ Ev.settle (.reject (bad400 "Message is not a base 64 encoded string.")) :: l2 ∧
      Ev.decodeF .message ∉ l1) :=
  (c6_amended env0 st0 taskC6w rfl).1 "!!!" rfl rfl

end FhirWorker
